import Mathlib

/-!
# reverseguard: the trusted reverse-proxy gatekeeper

A shallow embedding of `config.go` and `middleware.go` of the Go package
`reverseguard`, followed by theorems about it.

Conventions of the embedding.

* A Go `string` is a Lean `String`; the functions that scan a string work on its
  list of characters (`String.toList`).  All the separators the program looks for
  are ASCII, so scanning characters and scanning bytes agree on valid UTF-8.
* A Go byte slice (`net.IP`, `net.IPMask`) is a `List Nat` of bytes; the `nil`
  slice is `[]`.
* A Go map is a list of key/value pairs, read in the order in which `range`
  yields them in the run at hand.  Go leaves that order unspecified, so two lists
  that are permutations of one another stand for the same map.
* `http.Header` maps a canonical key to its list of values; a key that is not in
  the map has the empty list.
* A pointer that may be `nil` is an `Option`.
* What the program obtains from outside (the file system, the network) is an
  explicit argument.
-/

namespace Reverseguard

/-! ## Constants of `config.go` -/

def Second : String := "s"
def Minute : String := "m"
def Hour : String := "h"
def Day : String := "d"
def Week : String := "w"

def ActionRename : String := "rename"
def ActionDelete : String := "delete"
def ActionCopy : String := "copy"

/-! ## The part of package `net` the program uses -/

/-- Go `net.IP`: a slice of bytes, 4 or 16 of them when valid, `[]` for `nil`. -/
abbrev IP := List Nat

/-- Go `net.IPMask`. -/
abbrev IPMask := List Nat

/-- Go `net.IPNet`. -/
structure IPNet where
  IP : IP
  Mask : IPMask
deriving DecidableEq, Repr

/-- Go `net.isZeros`. -/
def isZeros (p : List Nat) : Bool := p.all fun b => b == 0

/-- Go `IP.To4`: the 4-byte form of an IPv4 address, `[]` (nil) otherwise. -/
def IP.To4 (ip : IP) : IP :=
  if ip.length = 4 then ip
  else if ip.length = 16 ∧ isZeros (ip.take 10) = true ∧ ip.getD 10 0 = 0xff ∧ ip.getD 11 0 = 0xff then
    ip.drop 12
  else []

/-- Go `net.networkNumberAndMask`; `([], [])` stands for `(nil, nil)`. -/
def networkNumberAndMask (n : IPNet) : IP × IPMask :=
  let ip4 := IP.To4 n.IP
  if ip4 = [] ∧ n.IP.length ≠ 16 then ([], [])
  else
    let ip := if ip4 = [] then n.IP else ip4
    if n.Mask.length = 4 then
      if ip.length ≠ 4 then ([], []) else (ip, n.Mask)
    else if n.Mask.length = 16 then
      if ip.length = 4 then (ip, n.Mask.drop 12) else (ip, n.Mask)
    else ([], [])

/-- Go `(*IPNet).Contains`. -/
def IPNet.Contains (n : IPNet) (ip : Reverseguard.IP) : Bool :=
  let nm := networkNumberAndMask n
  let x := IP.To4 ip
  let ip := if x ≠ [] then x else ip
  let l := ip.length
  if l ≠ nm.1.length then false
  else (List.range l).all fun i =>
    (nm.1.getD i 0 &&& nm.2.getD i 0) == (ip.getD i 0 &&& nm.2.getD i 0)

/-- Go `netip.parseIPv4Fields` on a whole string: the loop over the characters,
with `fields` the octets completed so far (so `pos = fields.length`). -/
def parseIPv4FieldsLoop : List Char → Bool → Bool → Nat → Nat → List Nat → Option (List Nat)
  | [], _, _, val, _, fields => if fields.length < 3 then none else some (fields ++ [val])
  | c :: rest, first, prevDot, val, digLen, fields =>
    if 48 ≤ c.toNat ∧ c.toNat ≤ 57 then
      if digLen = 1 ∧ val = 0 then none
      else
        let val1 := val * 10 + (c.toNat - 48)
        if val1 > 255 then none
        else parseIPv4FieldsLoop rest false false val1 (digLen + 1) fields
    else if c = '.' then
      if first ∨ rest = [] ∨ prevDot then none
      else if fields.length = 3 then none
      else parseIPv4FieldsLoop rest false true 0 0 (fields ++ [val])
    else none

/-- Go `netip.parseIPv4Fields`: four decimal octets separated by dots, each at most
255 and without a leading zero. -/
def parseIPv4Fields (s : List Char) : Option (List Nat) :=
  parseIPv4FieldsLoop s true false 0 0 []

/-- The value of a hexadecimal digit, as in the inner loop of `netip.parseIPv6`. -/
def hexVal (c : Char) : Option Nat :=
  if 48 ≤ c.toNat ∧ c.toNat ≤ 57 then some (c.toNat - 48)
  else if 97 ≤ c.toNat ∧ c.toNat ≤ 102 then some (c.toNat - 97 + 10)
  else if 65 ≤ c.toNat ∧ c.toNat ≤ 70 then some (c.toNat - 65 + 10)
  else none

/-- The inner loop of `netip.parseIPv6` that reads one group of hexadecimal digits:
`(off, acc, rest)`, or `none` for a group of more than four digits. -/
def takeHex : List Char → Nat → Nat → Option (Nat × Nat × List Char)
  | [], off, acc => some (off, acc, [])
  | c :: rest, off, acc =>
    match hexVal c with
    | some d => if off > 3 then none else takeHex rest (off + 1) (acc * 16 + d)
    | none => some (off, acc, c :: rest)

/-- The main loop of `netip.parseIPv6` (`for i < 16`), with `ip` the bytes written
so far (so `i = ip.length`) and `ellipsis` the position of `::` when seen.  The
result is the state after the loop: what is left of the string, the bytes, the
ellipsis.  Every turn writes two bytes, so nine turns of fuel are never used up. -/
def parseIPv6Loop : Nat → List Char → List Nat → Option Nat →
    Option (List Char × List Nat × Option Nat)
  | 0, s, ip, ellipsis => some (s, ip, ellipsis)
  | fuel + 1, s, ip, ellipsis =>
    if ¬ ip.length < 16 then some (s, ip, ellipsis)
    else
      match takeHex s 0 0 with
      | none => none
      | some (off, acc, rest) =>
        if off = 0 then none
        else if rest.head? = some '.' then
          if ellipsis.isNone ∧ ip.length ≠ 12 then none
          else if ip.length + 4 > 16 then none
          else
            match parseIPv4Fields s with
            | none => none
            | some f => some ([], ip ++ f, ellipsis)
        else
          let ip1 := ip ++ [acc / 256, acc % 256]
          match rest with
          | [] => some ([], ip1, ellipsis)
          | c :: rest1 =>
            if c ≠ ':' then none
            else
              match rest1 with
              | [] => none
              | c2 :: rest2 =>
                if c2 = ':' then
                  if ellipsis.isSome then none
                  else
                    match rest2 with
                    | [] => some ([], ip1, some ip1.length)
                    | _ :: _ => parseIPv6Loop fuel rest2 ip1 (some ip1.length)
                else parseIPv6Loop fuel rest1 ip1 ellipsis

/-- The end of Go `netip.parseIPv6`, after the loop: the whole string must have been
read, and an ellipsis is expanded to the zeros that fill the 16 bytes. -/
def parseIPv6Finish : Option (List Char × List Nat × Option Nat) → Option (List Nat)
  | none => none
  | some (rest, ip, ellipsis) =>
    if rest ≠ [] then none
    else if ip.length < 16 then
      match ellipsis with
      | none => none
      | some e => some (ip.take e ++ List.replicate (16 - ip.length) 0 ++ ip.drop e)
    else if ellipsis.isSome then none
    else some ip

/-- Go `netip.parseIPv6`, for an address without a zone: the 16 bytes.  (A string
with a zone, `%`, is refused here because `net.ParseIP` and `net.ParseCIDR` refuse
an address that has one.) -/
def parseIPv6 (s : List Char) : Option (List Nat) :=
  if '%' ∈ s then none
  else
    match s with
    | ':' :: ':' :: [] => some (List.replicate 16 0)
    | ':' :: ':' :: s1 => parseIPv6Finish (parseIPv6Loop 9 s1 [] (some 0))
    | _ => parseIPv6Finish (parseIPv6Loop 9 s [] none)

/-- The prefix `::ffff:0:0/96` of an IPv4 address in 16-byte form (Go `v4InV6Prefix`). -/
def v4InV6Prefix : List Nat := [0, 0, 0, 0, 0, 0, 0, 0, 0, 0, 0xff, 0xff]

/-- Go `netip.ParseAddr` followed by the refusal of a zone: `(is4, bytes)`, where
`bytes` is the 16-byte form (`Addr.As16`) and `is4` says that the text was a
dotted IPv4 address (`Addr.Is4`).  The first of `.`, `:` and `%` in the string
decides which parser reads it. -/
def parseAddrFrom (whole : List Char) : List Char → Option (Bool × List Nat)
  | [] => none
  | c :: rest =>
    if c = '.' then (parseIPv4Fields whole).map fun f => (true, v4InV6Prefix ++ f)
    else if c = ':' then (parseIPv6 whole).map fun b => (false, b)
    else if c = '%' then none
    else parseAddrFrom whole rest

/-- See `parseAddrFrom`. -/
def parseAddr (s : List Char) : Option (Bool × List Nat) := parseAddrFrom s s

/-- Go `net.ParseIP`: the 16-byte form of the address, `[]` (nil) when the string is
not an IP address. -/
def ParseIP (s : String) : IP :=
  match parseAddr s.toList with
  | some (_, b) => b
  | none => []

/-- The text before and after the first occurrence of `sep`, when there is one. -/
def cutFirst (sep : Char) : List Char → Option (List Char × List Char)
  | [] => none
  | c :: rest =>
    if c = sep then some ([], rest)
    else
      match cutFirst sep rest with
      | none => none
      | some (a, b) => some (c :: a, b)

/-- Go `net.CIDRMask(ones, bits)`, the loop over the `bits / 8` bytes of the mask,
with `n` the ones still to write. -/
def cidrMaskLoop : Nat → Nat → List Nat
  | 0, _ => []
  | l + 1, n =>
    if n ≥ 8 then 0xff :: cidrMaskLoop l (n - 8)
    else (0xff - (0xff >>> n)) :: cidrMaskLoop l 0

/-- Go `net.CIDRMask`, for `0 ≤ ones ≤ bits` and `bits` 32 or 128. -/
def CIDRMask (ones bits : Nat) : IPMask := cidrMaskLoop (bits / 8) ones

/-- Go `IP.Mask`. -/
def IP.Mask (ip : IP) (mask : IPMask) : IP :=
  let mask1 :=
    if mask.length = 16 ∧ ip.length = 4 ∧ (mask.take 12).all (fun b => b == 0xff) then mask.drop 12
    else mask
  let ip1 :=
    if mask1.length = 4 ∧ ip.length = 16 ∧ ip.take 12 = v4InV6Prefix then ip.drop 12 else ip
  if ip1.length ≠ mask1.length then []
  else List.zipWith (fun a b => a &&& b) ip1 mask1

/-- Go `net.dtoi`: the decimal number at the start of the text, `(n, i, ok)` with `i`
the number of characters read; it fails on no digit and on a number of `0xFFFFFF`
or more. -/
def dtoiLoop : List Char → Nat → Nat → Nat × Nat × Bool
  | [], n, i => if i = 0 then (0, 0, false) else (n, i, true)
  | c :: rest, n, i =>
    if 48 ≤ c.toNat ∧ c.toNat ≤ 57 then
      let n1 := n * 10 + (c.toNat - 48)
      if n1 ≥ 0xFFFFFF then (0xFFFFFF, i, false) else dtoiLoop rest n1 (i + 1)
    else if i = 0 then (0, 0, false) else (n, i, true)

/-- See `dtoiLoop`. -/
def dtoi (s : List Char) : Nat × Nat × Bool := dtoiLoop s 0 0

/-- Go `net.ParseCIDR`, its `*IPNet` result; `none` when it returns an error. -/
def ParseCIDR (s : String) : Option IPNet :=
  match cutFirst '/' s.toList with
  | none => none
  | some (addr, mask) =>
    match parseAddr addr with
    | none => none
    | some (is4, addr16) =>
      let bitLen := if is4 then 32 else 128
      let r := dtoi mask
      if ¬ r.2.2 ∨ r.2.1 ≠ mask.length ∨ r.1 > bitLen then none
      else
        let m := CIDRMask r.1 bitLen
        some { IP := IP.Mask addr16 m, Mask := m }

/-- The text of the error of Go `net.ParseCIDR` (`(*ParseError).Error`). -/
def parseCIDRError (s : String) : String := "invalid CIDR address: " ++ s

/-- Decimal text of a natural number (Go `%d`, `uitoa`). -/
def uitoa (n : Nat) : String := String.mk (Nat.toDigits 10 n)

/-- Decimal text of an integer (Go `%d` and `%v` of an `int`). -/
def itoa (n : Int) : String :=
  if n < 0 then "-" ++ uitoa n.natAbs else uitoa n.natAbs

/-- Go `net.hexString`: two lower-case hexadecimal digits a byte. -/
def hexString (b : List Nat) : String :=
  String.mk (b.flatMap fun v => [Nat.digitChar (v / 16), Nat.digitChar (v % 16)])

/-- Go `net.simpleMaskLength`: the number of leading ones of a mask made of ones
followed by zeros, `none` (for -1) for any other mask. -/
def simpleMaskLength : IPMask → Option Nat
  | [] => some 0
  | v :: rest =>
    if v = 0xff then (simpleMaskLength rest).map fun n => n + 8
    else
      let ones := ((List.range 8).takeWhile fun k => (v <<< k) % 256 &&& 0x80 != 0).length
      if (v <<< ones) % 256 ≠ 0 then none
      else if rest.all (fun b => b == 0) then some ones else none

/-- The eight 16-bit groups of a 16-byte address. -/
def groups16 : List Nat → List Nat
  | a :: b :: rest => (a * 256 + b) :: groups16 rest
  | _ => []

/-- The first loop of Go `netip.Addr.appendTo6`: the first longest run, of two or
more, of zero groups, as `(zeroStart, zeroEnd)`; `(255, 255)` when there is none. -/
def zeroRun (g : List Nat) : Nat × Nat :=
  (List.range 8).foldl (fun (z : Nat × Nat) i =>
    let j := i + ((g.drop i).takeWhile fun x => x == 0).length
    if j - i ≥ 2 ∧ j - i > z.2 - z.1 then (i, j) else z) (255, 255)

/-- The second loop of Go `netip.Addr.appendTo6`, from group `i` on. -/
def appendTo6Loop (g : List Nat) (z : Nat × Nat) : Nat → Nat → List Char
  | 0, _ => []
  | fuel + 1, i =>
    if ¬ i < 8 then []
    else if i = z.1 then
      if z.2 ≥ 8 then [':', ':']
      else [':', ':'] ++ Nat.toDigits 16 (g.getD z.2 0) ++ appendTo6Loop g z fuel (z.2 + 1)
    else
      (if i > 0 then [':'] else []) ++ Nat.toDigits 16 (g.getD i 0) ++ appendTo6Loop g z fuel (i + 1)

/-- Go `IP.String`. -/
def IP.String (ip : IP) : String :=
  if ip.length = 0 then "<nil>"
  else if ip.length ≠ 4 ∧ ip.length ≠ 16 then "?" ++ hexString ip
  else
    let p4 := IP.To4 ip
    if p4.length = 4 then
      String.intercalate "." (p4.map uitoa)
    else
      let g := groups16 ip
      String.mk (appendTo6Loop g (zeroRun g) 9 0)

/-- Go `IPMask.String`. -/
def IPMask.String (m : IPMask) : String :=
  if m.length = 0 then "<nil>" else hexString m

/-- Go `(*IPNet).String`. -/
def IPNet.String (n : IPNet) : String :=
  let nm := networkNumberAndMask n
  if nm.1 = [] ∨ nm.2 = [] then "<nil>"
  else
    match simpleMaskLength nm.2 with
    | none => IP.String nm.1 ++ "/" ++ IPMask.String nm.2
    | some l => IP.String nm.1 ++ "/" ++ uitoa l

/-! ## The part of packages `strings` and `net/textproto` the request path uses -/

/-- Go `strings.SplitN(s, sep, 2)` for a separator of one character: `[s]` when
`sep` does not occur in `s`, otherwise the text before the first `sep` and the
text after it. -/
def SplitN2 (s : String) (sep : Char) : List String :=
  match cutFirst sep s.toList with
  | none => [s]
  | some (a, b) => [String.mk a, String.mk b]

/-- Go `textproto.validHeaderFieldByte`: the characters of an HTTP token (letters,
digits and the fifteen marks of RFC 7230). -/
def validHeaderFieldByte (c : Char) : Bool :=
  let n := c.toNat
  (48 ≤ n && n ≤ 57) || (65 ≤ n && n ≤ 90) || (97 ≤ n && n ≤ 122) ||
    [33, 35, 36, 37, 38, 39, 42, 43, 45, 46, 94, 95, 96, 124, 126].contains n

/-- The second loop of Go `textproto.canonicalMIMEHeaderKey`: upper case for the
first letter and for a letter after a dash, lower case for the other letters. -/
def canonLoop : Bool → List Char → List Char
  | _, [] => []
  | upper, c :: rest =>
    let n := c.toNat
    let c1 : Char :=
      if upper ∧ 97 ≤ n ∧ n ≤ 122 then Char.ofNat (n - 32)
      else if ¬ upper ∧ 65 ≤ n ∧ n ≤ 90 then Char.ofNat (n + 32)
      else c
    c1 :: canonLoop (c1 = '-') rest

/-- Go `textproto.CanonicalMIMEHeaderKey`: a key made of token characters only is
put in canonical case, any other key is returned as it is. -/
def CanonicalMIMEHeaderKey (s : String) : String :=
  if s.toList.all validHeaderFieldByte then String.mk (canonLoop true s.toList) else s

/-- Go `http.Header`, by canonical key; a key that is not in the map has `[]`. -/
abbrev Header := String → List String

/-- Go `Header.Get`: the first value of the key, `""` when there is none. -/
def Header.Get (h : Header) (key : String) : String :=
  match h (CanonicalMIMEHeaderKey key) with
  | [] => ""
  | v :: _ => v

/-- Go `Header.Del`. -/
def Header.Del (h : Header) (key : String) : Header :=
  fun k => if k = CanonicalMIMEHeaderKey key then [] else h k

/-- Go `Header.Add`: appends the value to the values of the key. -/
def Header.Add (h : Header) (key value : String) : Header :=
  fun k => if k = CanonicalMIMEHeaderKey key then h k ++ [value] else h k

/-! ## The data model of `config.go` -/

structure HeaderAction where
  Action : String
  Source : String
  Target : String
deriving DecidableEq, Repr

structure ForbiddenResponse where
  code : Int
  content : String
deriving DecidableEq, Repr

structure Interval where
  Number : Int
  Unit : String
deriving DecidableEq, Repr

structure DynamicCIDR where
  Url : String
  interval : Option Interval
  RawInterval : String
  cidrList : List IPNet
deriving DecidableEq, Repr

structure ReverseProxy where
  HeaderActions : List HeaderAction
  RawStaticCIDRs : List String
  staticCIDRS : List IPNet
  DynamicCIDRs : List DynamicCIDR
deriving DecidableEq, Repr

/-- The configuration.  `Custom403Response` is a pointer in the source, `none` when
it is nil; `Map` is the Go map from a name to its reverse proxy. -/
structure Config where
  Custom403Response : Option ForbiddenResponse
  Map : List (String × ReverseProxy)
deriving DecidableEq, Repr

/-- Go `CreateConfig`: `&Config{}`. -/
def CreateConfig : Config := { Custom403Response := none, Map := [] }

/-! ## The part of packages `strings`, `strconv`, `fmt` and `regexp` that
construction and refresh use -/

/-- Go `strings.Contains`. -/
def Contains (s substr : String) : Bool := decide (substr.toList <:+: s.toList)

/-- Go `strings.HasPrefix`. -/
def HasPrefix (s pre : String) : Bool := pre.toList.isPrefixOf s.toList

/-- Go `unicode.IsSpace`. -/
def isSpace (c : Char) : Bool :=
  let n := c.toNat
  (9 ≤ n && n ≤ 13) || n == 32 || n == 0x85 || n == 0xA0 || n == 0x1680 ||
    (0x2000 ≤ n && n ≤ 0x200a) || n == 0x2028 || n == 0x2029 || n == 0x202f ||
    n == 0x205f || n == 0x3000

/-- Go `strings.TrimSpace`. -/
def TrimSpace (s : String) : String :=
  String.mk ((s.toList.dropWhile isSpace).reverse.dropWhile isSpace).reverse

/-- The replacer of `update`,
`strings.NewReplacer("\r\n", "\n", "\r", "\n", "\v", "\n", "\f", "\n")`, read from
left to right; `afterCR` says that the character before was a carriage return,
for which the line feed is already written. -/
def replaceLineEndsFrom : Bool → List Char → List Char
  | _, [] => []
  | afterCR, c :: rest =>
    if c.toNat = 10 ∧ afterCR then replaceLineEndsFrom false rest
    else if c.toNat = 13 then '\n' :: replaceLineEndsFrom true rest
    else if c.toNat = 11 ∨ c.toNat = 12 then '\n' :: replaceLineEndsFrom false rest
    else c :: replaceLineEndsFrom false rest

/-- See `replaceLineEndsFrom`. -/
def replaceLineEnds (s : List Char) : List Char := replaceLineEndsFrom false s

/-- Go `strings.Split(s, sep)` for a separator of one character. -/
def splitChars (sep : Char) : List Char → List (List Char)
  | [] => [[]]
  | c :: rest =>
    if c = sep then [] :: splitChars sep rest
    else
      match splitChars sep rest with
      | [] => [[c]]
      | l :: ls => (c :: l) :: ls

/-- See `splitChars`. -/
def Split (s : String) (sep : Char) : List String := (splitChars sep s.toList).map String.mk

/-- Go `strconv.IsPrint`.  Up to U+00FF it is written out in the Go source; above,
it reads the Unicode tables of the Go release, which are taken as the argument
`wide`. -/
def IsPrint (wide : Nat → Bool) (c : Char) : Bool :=
  let r := c.toNat
  if r ≤ 0xFF then
    if 0x20 ≤ r ∧ r ≤ 0x7E then true
    else if 0xA1 ≤ r ∧ r ≤ 0xFF then r != 0xAD
    else false
  else wide r

/-- Lower-case hexadecimal digits of `r`, `k` of them. -/
def hexDigits (r : Nat) : Nat → List Char
  | 0 => []
  | k + 1 => hexDigits (r / 16) k ++ [Nat.digitChar (r % 16)]

/-- Go `strconv.appendEscapedRune` with the double quote as the quote. -/
def appendEscapedRune (wide : Nat → Bool) (c : Char) : List Char :=
  let r := c.toNat
  if r = 34 ∨ r = 92 then ['\\', c]
  else if IsPrint wide c then [c]
  else if r = 7 then ['\\', 'a']
  else if r = 8 then ['\\', 'b']
  else if r = 12 then ['\\', 'f']
  else if r = 10 then ['\\', 'n']
  else if r = 13 then ['\\', 'r']
  else if r = 9 then ['\\', 't']
  else if r = 11 then ['\\', 'v']
  else if r < 32 ∨ r = 0x7f then ['\\', 'x'] ++ hexDigits r 2
  else if r < 0x10000 then ['\\', 'u'] ++ hexDigits r 4
  else ['\\', 'U'] ++ hexDigits r 8

/-- Go `strconv.Quote`, which is what the verb `%q` writes for a string: the text
between double quotes, with a backslash before a double quote and before a
backslash, and an escape sequence for a character that is not printable. -/
def Quote (wide : Nat → Bool) (s : String) : String :=
  String.mk ([Char.ofNat 34] ++ s.toList.flatMap (appendEscapedRune wide) ++ [Char.ofNat 34])

/-- The value of a text of decimal digits. -/
def decimalValue (ds : List Char) : Nat := ds.foldl (fun n c => n * 10 + (c.toNat - 48)) 0

/-- ASCII decimal digit. -/
def isDigit (c : Char) : Bool := 48 ≤ c.toNat && c.toNat ≤ 57

/-- Go `strconv.Atoi` (an `int` has 64 bits): `none` when it returns an error, on a
text that is not an optional sign followed by decimal digits or on a value out of
range. -/
def Atoi (s : String) : Option Int :=
  let cs := s.toList
  let neg : Bool := cs.head? = some '-'
  let ds := if cs.head? = some '-' ∨ cs.head? = some '+' then cs.drop 1 else cs
  if ds = [] ∨ ¬ ds.all isDigit then none
  else
    let n := decimalValue ds
    if neg then (if n > 2 ^ 63 then none else some (-(n : Int)))
    else if n > 2 ^ 63 - 1 then none else some (n : Int)

/-- The regular expression of `New`, `^(\d+)(s|h|d|w|m|M)$`, applied with
`FindAllStringSubmatch`: the two groups of the match, `none` when there is no
match. -/
def intervalRegex (s : String) : Option (String × String) :=
  match s.toList.reverse with
  | [] => none
  | u :: ds =>
    if (u = 's' ∨ u = 'h' ∨ u = 'd' ∨ u = 'w' ∨ u = 'm' ∨ u = 'M') ∧ ds ≠ [] ∧ ds.all isDigit then
      some (String.mk ds.reverse, String.mk [u])
    else none

/-! ## Dynamic sources -/

/-- Go `NewInterval`; the error carries the text of `fmt.Errorf`. -/
def NewInterval (wide : Nat → Bool) (number : Int) (unit : String) : Except String Interval :=
  if number ≤ 0 then
    Except.error ("the interval \"" ++ itoa number ++ Quote wide unit ++
      "\" is invalid because the number must be greater than zero")
  else if unit ≠ Second ∧ unit ≠ Minute ∧ unit ≠ Hour ∧ unit ≠ Day ∧ unit ≠ Week then
    Except.error ("the interval \"" ++ itoa number ++ Quote wide unit ++
      "\" is invalid because the unit is unknown. Available units: s, m, h, d, w")
  else Except.ok { Number := number, Unit := unit }

/-- Go `(*DynamicCIDR).isFileUrl`. -/
def DynamicCIDR.isFileUrl (d : DynamicCIDR) : Bool := HasPrefix d.Url "file://"

/-- Go `(*DynamicCIDR).isHttpUrl`. -/
def DynamicCIDR.isHttpUrl (d : DynamicCIDR) : Bool :=
  HasPrefix d.Url "http://" || HasPrefix d.Url "https://"

/-- Go `(*DynamicCIDR).hasCIDR`. -/
def DynamicCIDR.hasCIDR (d : DynamicCIDR) (cidr : String) : Bool :=
  let cidr1 := if ¬ Contains cidr "/" then cidr ++ "/32" else cidr
  d.cidrList.any fun v =>
    let item := v.String
    let item1 := if ¬ Contains item "/" then item ++ "/32" else item
    cidr1 == item1

/-- How `os.Stat` can fail, as far as `update` tells the cases apart. -/
inductive StatError where
  | notExist
  | permission
  | other
deriving DecidableEq, Repr

/-- What one call of `update` obtains from outside.  Only the fields of the branch
the URL selects are read. -/
structure Observed where
  /-- The error of `os.Stat(filePath)`, if any. -/
  statErr : Option StatError
  /-- The text of the error of `os.Open(filePath)`, if any. -/
  openErr : Option String
  /-- The lines of the file, as `fileScanner.Scan` and `fileScanner.Text` yield them. -/
  lines : List String
  /-- The text of the error of `http.Get(d.Url)`, if any. -/
  getErr : Option String
  /-- The field `resp.StatusCode`. -/
  StatusCode : Int
  /-- The text of the error met while reading the body, if any. -/
  readErr : Option String
  /-- The body of the response. -/
  body : String
deriving DecidableEq, Repr

/-- How a call of `update` ends. -/
inductive UpdateOutcome where
  /-- It returns `(added, skipped, err)`, with `d` the source as it then is. -/
  | returned (d : DynamicCIDR) (added skipped : Nat) (err : Option String)
  /-- It panics (`panic("not implemented")`). -/
  | panicked (msg : String)
deriving DecidableEq, Repr

/-- How the loop over the lines ends in `update`. -/
inductive LinesOutcome where
  | finished (CIDRList : List IPNet) (added skipped : Nat)
  | failed (entry : String)
deriving DecidableEq, Repr

/-- The loop `for fileScanner.Scan()` of `update`.  Note `append(d.cidrList, cidr)`:
the new subnet is appended to the list of the source, not to `CIDRList`. -/
def updateFileLoop (d : DynamicCIDR) : List String → List IPNet → Nat → Nat → LinesOutcome
  | [], CIDRList, added, skipped => LinesOutcome.finished CIDRList added skipped
  | line :: rest, CIDRList, added, skipped =>
    let entry := if ¬ Contains line "/" then line ++ "/32" else line
    if d.hasCIDR entry then updateFileLoop d rest CIDRList added (skipped + 1)
    else
      match ParseCIDR entry with
      | none => LinesOutcome.failed entry
      | some cidr => updateFileLoop d rest (d.cidrList ++ [cidr]) (added + 1) skipped

/-- The loop `for _, v := range strings.Split(content, "\n")` of `update`. -/
def updateHttpLoop (d : DynamicCIDR) : List String → List IPNet → Nat → Nat → LinesOutcome
  | [], CIDRList, added, skipped => LinesOutcome.finished CIDRList added skipped
  | line :: rest, CIDRList, added, skipped =>
    let v := TrimSpace line
    if v = "" then updateHttpLoop d rest CIDRList added skipped
    else
      let v1 := if ¬ Contains v "/" then v ++ "/32" else v
      if d.hasCIDR v1 then updateHttpLoop d rest CIDRList added (skipped + 1)
      else
        match ParseCIDR v1 with
        | none => LinesOutcome.failed v1
        | some cidr => updateHttpLoop d rest (CIDRList ++ [cidr]) (added + 1) skipped

/-- Go `(*DynamicCIDR).update`, given what the call obtains from outside. -/
def DynamicCIDR.update (wide : Nat → Bool) (d : DynamicCIDR) (w : Observed) : UpdateOutcome :=
  if d.isFileUrl then
    let filePath := String.mk (d.Url.toList.drop 7)
    if w.statErr = some StatError.notExist then
      UpdateOutcome.returned d 0 0 (some ("the file " ++ Quote wide filePath ++ " does not exist"))
    else if w.statErr = some StatError.permission then
      UpdateOutcome.returned d 0 0 (some ("no permissions to read the file " ++ Quote wide filePath))
    else
      match w.openErr with
      | some err => UpdateOutcome.returned d 0 0 (some err)
      | none =>
        match updateFileLoop d w.lines [] 0 0 with
        | LinesOutcome.failed entry => UpdateOutcome.returned d 0 0 (some (parseCIDRError entry))
        | LinesOutcome.finished CIDRList added skipped =>
          UpdateOutcome.returned { d with cidrList := CIDRList } added skipped none
  else if d.isHttpUrl then
    match w.getErr with
    | some err => UpdateOutcome.returned d 0 0 (some err)
    | none =>
      if w.StatusCode ≠ 304 ∧ w.StatusCode ≠ 200 then
        UpdateOutcome.returned d 0 0
          (some ("response code " ++ itoa w.StatusCode ++ " is not acceptable"))
      else if w.body.utf8ByteSize > 2000 then
        UpdateOutcome.returned d 0 0 (some "http: request body too large")
      else
        match w.readErr with
        | some err => UpdateOutcome.returned d 0 0 (some err)
        | none =>
          let content := String.mk (replaceLineEnds w.body.toList)
          match updateHttpLoop d (Split content '\n') [] 0 0 with
          | LinesOutcome.failed _ =>
            UpdateOutcome.returned { d with cidrList := [] } 0 0 (some "invalid URL content")
          | LinesOutcome.finished CIDRList added skipped =>
            UpdateOutcome.returned { d with cidrList := CIDRList } added skipped none
  else UpdateOutcome.panicked "not implemented"

/-! ## The request path -/

/-- One turn of the loop of `applyHeaderOptions`. -/
def applyHeaderAction (h : Header) (act : HeaderAction) : Header :=
  if act.Action = ActionCopy then
    let hVal := h.Get act.Source
    if hVal ≠ "" then (h.Del act.Target).Add act.Target hVal else h
  else if act.Action = ActionRename then
    let hVal := h.Get act.Source
    if hVal ≠ "" then ((h.Del act.Source).Del act.Target).Add act.Target hVal else h
  else if act.Action = ActionDelete then h.Del act.Source
  else h

/-- Go `(*ReverseProxy).applyHeaderOptions`, on the header of the request. -/
def ReverseProxy.applyHeaderOptions (r : ReverseProxy) (h : Header) : Header :=
  r.HeaderActions.foldl applyHeaderAction h

/-- Go `(*ReverseProxy).contains`: the static subnets first, then the current list
of every dynamic source, with a return at the first subnet that contains the
address. -/
def ReverseProxy.contains (r : ReverseProxy) (ip : IP) : Bool :=
  if r.staticCIDRS.any (fun trustedCIDR => trustedCIDR.Contains ip) then true
  else if r.DynamicCIDRs.any (fun trustedCIDRList =>
      trustedCIDRList.cidrList.any (fun trustedCIDR => trustedCIDR.Contains ip)) then true
  else false

/-- Go `(*ReverseGuard).lookupTrustedIp`: the first reverse proxy, in the order in
which `range` yields the entries of the map, that contains the address; `none`
for nil. -/
def lookupTrustedIp (config : Config) (ip : IP) : Option ReverseProxy :=
  (config.Map.find? fun e => e.2.contains ip).map fun e => e.2

/-- The request, as far as `ServeHTTP` reads it. -/
structure Request where
  RemoteAddr : String
  Header : Header

/-- What `ServeHTTP` does with a request. -/
inductive Outcome where
  /-- The call `r.next.ServeHTTP(rw, req)`, with the header the request then has. -/
  | forwarded (header : Header)
  /-- The call `http.Error(rw, content, code)`; the request is not forwarded. -/
  | rejected (content : String) (code : Int)
  /-- A run-time panic: the nil pointer `Custom403Response` is dereferenced.  No
  response is written by the handler and the request is not forwarded. -/
  | panicked

/-- Go `http.StatusForbidden`. -/
def StatusForbidden : Int := 403

/-- Go `(*ReverseGuard).ServeHTTP`. -/
def ServeHTTP (config : Config) (req : Request) : Outcome :=
  let ipParts := SplitN2 req.RemoteAddr ':'
  match lookupTrustedIp config (ParseIP (ipParts.headD "")) with
  | none =>
    match config.Custom403Response with
    | none => Outcome.panicked
    | some resp =>
      if resp.code ≠ 0 then Outcome.rejected resp.content resp.code
      else Outcome.rejected "" StatusForbidden
  | some reverse => Outcome.forwarded (reverse.applyHeaderOptions req.Header)

/-! ## Construction -/

/-- What construction takes from outside the program. -/
structure Extern where
  /-- Go `strconv.IsPrint` above U+00FF (see `IsPrint`). -/
  isPrintWide : Nat → Bool
  /-- Whether `url.ParseRequestURI` returns no error for the text. -/
  validRequestURI : String → Bool
  /-- What the call of `update` for dynamic source number `k` of the entry that
  `range` yields as number `j` obtains from outside. -/
  observed : Nat → Nat → Observed

/-- How a part of `New` ends: it goes on with a value, it makes `New` return the
error `err`, or it panics. -/
inductive Step (α : Type) where
  | ok (a : α)
  | failed (err : String)
  | panicked (msg : String)
deriving DecidableEq, Repr

/-- The loop `for i, act := range proxy.HeaderActions` of `New`, from action number
`i` on: the text of the error it returns, `none` when every action passes. -/
def New_headerActions (wide : Nat → Bool) (name : String) : Nat → List HeaderAction → Option String
  | _, [] => none
  | i, act :: rest =>
    if act.Source = "" then
      some ("error in " ++ Quote wide name ++ " reverse proxy configuration: action #" ++
        uitoa i ++ " must contain the \"source\" option")
    else if act.Action = ActionCopy ∨ act.Action = ActionRename then
      if act.Target = "" then
        some ("error in " ++ Quote wide name ++ " reverse proxy configuration: action #" ++
          uitoa i ++ " must contain the \"target\" option")
      else New_headerActions wide name (i + 1) rest
    else if act.Action = ActionDelete then New_headerActions wide name (i + 1) rest
    else if act.Action = "" then
      some ("error in " ++ Quote wide name ++ " reverse proxy configuration: action #" ++
        uitoa i ++ " must contain the \"action\" option")
    else
      some ("error in " ++ Quote wide name ++ " reverse proxy configuration: action #" ++
        uitoa i ++ " of the type \"" ++ act.Action ++ "\" is not valid")

/-- The loop `for _, v := range proxy.RawStaticCIDRs` of `New`, with `staticCIDRS`
the field of the proxy as it is so far. -/
def New_staticCIDRs (wide : Nat → Bool) (name : String) : List String → List IPNet → Step (List IPNet)
  | [], staticCIDRS => Step.ok staticCIDRS
  | raw :: rest, staticCIDRS =>
    let v := if ¬ Contains raw "/" then raw ++ "/32" else raw
    match ParseCIDR v with
    | none =>
      Step.failed ("error in " ++ Quote wide name ++
        " reverse proxy configuration: the static CIDR " ++ Quote wide v ++ " is invalid")
    | some cidr => New_staticCIDRs wide name rest (staticCIDRS ++ [cidr])

/-- The part `if dynamicCIDR.RawInterval != ""` of the body of the loop over the
dynamic sources in `New`. -/
def New_interval (wide : Nat → Bool) (name : String) (dynamicCIDR : DynamicCIDR) : Step DynamicCIDR :=
  if dynamicCIDR.RawInterval ≠ "" then
    let invalidIntervalError := "error in " ++ Quote wide name ++
      " reverse proxy configuration, endpoint " ++ Quote wide dynamicCIDR.Url ++
      ": invalid interval " ++ Quote wide dynamicCIDR.RawInterval
    match intervalRegex dynamicCIDR.RawInterval with
    | none => Step.failed invalidIntervalError
    | some (digits, unit) =>
      match Atoi digits with
      | none => Step.failed invalidIntervalError
      | some number =>
        match NewInterval wide number unit with
        | Except.error err =>
          Step.failed ("error in " ++ Quote wide name ++ " reverse proxy configuration, endpoint " ++
            Quote wide dynamicCIDR.Url ++ ": " ++ err)
        | Except.ok interval =>
          Step.ok { dynamicCIDR with interval := some interval, RawInterval := "" }
  else Step.ok dynamicCIDR

/-- The body of the loop `for _, dynamicCIDR := range proxy.DynamicCIDRs` of `New`:
the URL is checked, the interval is read, the source is fetched once.  (The
goroutine it starts for a source with an interval does not bear on what `New`
returns.) -/
def New_dynamicCIDR (ext : Extern) (name : String) (w : Observed) (dynamicCIDR : DynamicCIDR) :
    Step DynamicCIDR :=
  if ¬ ext.validRequestURI dynamicCIDR.Url then
    Step.failed ("error in " ++ Quote ext.isPrintWide name ++
      " reverse proxy configuration: the url " ++ Quote ext.isPrintWide dynamicCIDR.Url ++ " is invalid")
  else
    match New_interval ext.isPrintWide name dynamicCIDR with
    | Step.failed err => Step.failed err
    | Step.panicked msg => Step.panicked msg
    | Step.ok dyn =>
      match dyn.update ext.isPrintWide w with
      | UpdateOutcome.panicked msg => Step.panicked msg
      | UpdateOutcome.returned _ _ _ (some err) =>
        Step.failed ("error in " ++ Quote ext.isPrintWide name ++
          " reverse proxy configuration, endpoint " ++ Quote ext.isPrintWide dyn.Url ++ ": " ++ err)
      | UpdateOutcome.returned d _ _ none => Step.ok d

/-- The loop `for _, dynamicCIDR := range proxy.DynamicCIDRs` of `New`, from source
number `k` on, for the entry that `range` yields as number `j`. -/
def New_dynamicCIDRs (ext : Extern) (name : String) (j : Nat) : Nat → List DynamicCIDR →
    Step (List DynamicCIDR)
  | _, [] => Step.ok []
  | k, dynamicCIDR :: rest =>
    match New_dynamicCIDR ext name (ext.observed j k) dynamicCIDR with
    | Step.failed err => Step.failed err
    | Step.panicked msg => Step.panicked msg
    | Step.ok d =>
      match New_dynamicCIDRs ext name j (k + 1) rest with
      | Step.failed err => Step.failed err
      | Step.panicked msg => Step.panicked msg
      | Step.ok ds => Step.ok (d :: ds)

/-- The body of the loop `for name, proxy := range config.Map` of `New`, for the
entry that `range` yields as number `j`: the proxy as `New` leaves it. -/
def New_proxy (ext : Extern) (j : Nat) (name : String) (proxy : ReverseProxy) : Step ReverseProxy :=
  if proxy.DynamicCIDRs.length = 0 ∧ proxy.RawStaticCIDRs.length = 0 then
    Step.failed ("error in " ++ Quote ext.isPrintWide name ++
      " reverse proxy configuration: no configured subnets (CIDRs). This middleware will not be used")
  else
    match New_headerActions ext.isPrintWide name 0 proxy.HeaderActions with
    | some err => Step.failed err
    | none =>
      match New_staticCIDRs ext.isPrintWide name proxy.RawStaticCIDRs proxy.staticCIDRS with
      | Step.failed err => Step.failed err
      | Step.panicked msg => Step.panicked msg
      | Step.ok staticCIDRS =>
        match New_dynamicCIDRs ext name j 0 proxy.DynamicCIDRs with
        | Step.failed err => Step.failed err
        | Step.panicked msg => Step.panicked msg
        | Step.ok dynamicCIDRs =>
          Step.ok { proxy with
            RawStaticCIDRs := [], staticCIDRS := staticCIDRS, DynamicCIDRs := dynamicCIDRs }

/-- The loop `for name, proxy := range config.Map` of `New`, from entry number `j`
on. -/
def New_map (ext : Extern) : Nat → List (String × ReverseProxy) → Step (List (String × ReverseProxy))
  | _, [] => Step.ok []
  | j, (name, proxy) :: rest =>
    match New_proxy ext j name proxy with
    | Step.failed err => Step.failed err
    | Step.panicked msg => Step.panicked msg
    | Step.ok proxy1 =>
      match New_map ext (j + 1) rest with
      | Step.failed err => Step.failed err
      | Step.panicked msg => Step.panicked msg
      | Step.ok rest1 => Step.ok ((name, proxy1) :: rest1)

/-- Go `New`: `Step.ok config` when it returns the plugin, whose configuration is
`config`; `Step.failed err` when it returns `(nil, err)`. -/
def New (ext : Extern) (config : Config) : Step Config :=
  if config.Map.length = 0 then Step.failed "empty configuration"
  else
    match New_map ext 0 config.Map with
    | Step.failed err => Step.failed err
    | Step.panicked msg => Step.panicked msg
    | Step.ok map1 => Step.ok { config with Map := map1 }

/-! ## The text that is parsed for a subnet -/

/-- The text `New` and `update` parse for a configured string `v`, after
`if !strings.Contains(v, "/") { v += "/32" }`. -/
def withDefaultPrefix (v : String) : String :=
  if ¬ Contains v "/" then v ++ "/32" else v

/-! ## The refresh scheduler -/

/-- Go `time.Second`, a number of nanoseconds. -/
def timeSecond : Int := 1000000000

/-- Go `time.Minute`. -/
def timeMinute : Int := 60 * timeSecond

/-- Go `time.Hour`. -/
def timeHour : Int := 60 * timeMinute

/-- The value a signed integer of 64 bits holds after an operation that may
overflow (Go `int` on a 64-bit platform, `time.Duration`): `x` modulo `2 ^ 64`,
between `-2 ^ 63` and `2 ^ 63 - 1`. -/
def wrapInt64 (x : Int) : Int := (x + 2 ^ 63) % 2 ^ 64 - 2 ^ 63

/-- The interval the goroutine of `New` sleeps for between two refreshes of a
source: `timeUnit` as the `switch` on the unit sets it (0 when no case applies),
then `time.Duration(dyn.interval.Number * timeUnit)`, a product of two `int`. -/
def New_sleepInterval (interval : Interval) : Int :=
  let timeUnit : Int :=
    if interval.Unit = "s" then timeSecond
    else if interval.Unit = "m" then timeMinute
    else if interval.Unit = "h" then timeHour
    else if interval.Unit = "d" then timeHour * 24
    else if interval.Unit = "w" then timeHour * 24 * 7
    else 0
  wrapInt64 (interval.Number * timeUnit)

/-! ## Predicates used to state the theorems -/

/-- The shape of a subnet that `net.ParseCIDR` returns: four bytes of address with
four bytes of mask, or sixteen with sixteen. -/
def IPNet.valid (n : IPNet) : Prop :=
  (n.IP.length = 4 ∧ n.Mask.length = 4) ∨ (n.IP.length = 16 ∧ n.Mask.length = 16)

/-- The subnets of the configuration are results of `net.ParseCIDR`, as they are
when `New` has built them. -/
def Config.subnetsParsed (config : Config) : Prop :=
  ∀ e ∈ config.Map, ∀ n : IPNet,
    (n ∈ e.2.staticCIDRS ∨ ∃ d ∈ e.2.DynamicCIDRs, n ∈ d.cidrList) → ∃ s : String, ParseCIDR s = some n

/-- A header action as the specification describes a valid one: a non-empty source,
an action among `copy`, `rename` and `delete`, and a non-empty target when the
action is `copy` or `rename`. -/
def HeaderAction.wellFormed (a : HeaderAction) : Prop :=
  a.Source ≠ "" ∧ (a.Action = "copy" ∨ a.Action = "rename" ∨ a.Action = "delete") ∧
    ((a.Action = "copy" ∨ a.Action = "rename") → a.Target ≠ "")

/-- Whether an action is well formed can be computed. -/
instance (a : HeaderAction) : Decidable a.wellFormed := by
  unfold HeaderAction.wellFormed
  infer_instance

/-- The characters of a name that `%q` writes as they are. -/
def plainName (wide : Nat → Bool) (n : String) : Prop :=
  ∀ c ∈ n.toList, c.toNat ≠ 34 ∧ c.toNat ≠ 92 ∧ IsPrint wide c = true

/-- The interval syntax of the specification, `^(\d+)(s|m|h|d|w)$`: one or more
digits followed by exactly one of the unit letters. -/
def specIntervalSyntax (s : String) : Bool :=
  match s.toList.reverse with
  | [] => false
  | u :: ds =>
    decide ((u = 's' ∨ u = 'm' ∨ u = 'h' ∨ u = 'd' ∨ u = 'w') ∧ ds ≠ [] ∧ ds.all isDigit = true)

/-- The seconds of a unit, as the specification gives them: second 1, minute 60,
hour 3600, day 86400, week 604800. -/
def specUnitSeconds (unit : String) : Option Int :=
  if unit = "s" then some 1
  else if unit = "m" then some 60
  else if unit = "h" then some 3600
  else if unit = "d" then some 86400
  else if unit = "w" then some 604800
  else none

/-- A line of a file that `update` can neither skip as a duplicate of the current
list nor parse. -/
def DynamicCIDR.rejectsLine (d : DynamicCIDR) (line : String) : Prop :=
  d.hasCIDR (withDefaultPrefix line) = false ∧ ParseCIDR (withDefaultPrefix line) = none

/-- A line of a remote list that `update` can neither pass over as blank, nor skip
as a duplicate of the current list, nor parse. -/
def DynamicCIDR.rejectsRemoteLine (d : DynamicCIDR) (line : String) : Prop :=
  TrimSpace line ≠ "" ∧ d.rejectsLine (TrimSpace line)

/-- The lines `update` reads from the body of a response. -/
def bodyLines (body : String) : List String :=
  Split (String.mk (replaceLineEnds body.toList)) '\n'

/-! ## Concrete inputs used in the examples below -/

/-- Nothing is reachable: no file exists, no host answers, no URL is accepted. -/
def offline : Extern :=
  { isPrintWide := fun _ => false
    validRequestURI := fun _ => false
    observed := fun _ _ =>
      { statErr := some StatError.notExist, openErr := none, lines := [],
        getErr := some "no such host", StatusCode := 0, readErr := none, body := "" } }

/-- The entry `{static_cidrs: ["192.168.0.0/16"]}` as configured. -/
def lanRaw : ReverseProxy :=
  { HeaderActions := [], RawStaticCIDRs := ["192.168.0.0/16"], staticCIDRS := [], DynamicCIDRs := [] }

/-- The entry `lanRaw` as `New` leaves it. -/
def lan : ReverseProxy :=
  { HeaderActions := [], RawStaticCIDRs := [],
    staticCIDRS := [{ IP := [192, 168, 0, 0], Mask := [255, 255, 0, 0] }], DynamicCIDRs := [] }

/-- A request without headers. -/
def noHeader : Header := fun _ => []

/-- An entry for `10.0.0.0/8` that deletes the header `X-A`. -/
def edgeA : ReverseProxy :=
  { HeaderActions := [{ Action := "delete", Source := "X-A", Target := "" }], RawStaticCIDRs := [],
    staticCIDRS := [{ IP := [10, 0, 0, 0], Mask := [255, 0, 0, 0] }], DynamicCIDRs := [] }

/-- An entry for `10.0.0.0/8` that deletes the header `X-B`. -/
def edgeB : ReverseProxy :=
  { HeaderActions := [{ Action := "delete", Source := "X-B", Target := "" }], RawStaticCIDRs := [],
    staticCIDRS := [{ IP := [10, 0, 0, 0], Mask := [255, 0, 0, 0] }], DynamicCIDRs := [] }

/-- The header `X-A: 1`, `X-B: 2`. -/
def headerAB : Header := fun k => if k = "X-A" then ["1"] else if k = "X-B" then ["2"] else []

/-- The entry `{static_cidrs: ["2001:db8::/32"]}` as configured. -/
def v6Raw : ReverseProxy :=
  { HeaderActions := [], RawStaticCIDRs := ["2001:db8::/32"], staticCIDRS := [], DynamicCIDRs := [] }

/-- The entry `v6Raw` as `New` leaves it. -/
def v6 : ReverseProxy :=
  { HeaderActions := [], RawStaticCIDRs := [],
    staticCIDRS := [{ IP := [0x20, 0x01, 0x0d, 0xb8, 0, 0, 0, 0, 0, 0, 0, 0, 0, 0, 0, 0],
                      Mask := [255, 255, 255, 255, 0, 0, 0, 0, 0, 0, 0, 0, 0, 0, 0, 0] }],
    DynamicCIDRs := [] }

/-- The section `rewrite_403` present and empty: `&ForbiddenResponse{}`. -/
def emptyOverride : ForbiddenResponse := { code := 0, content := "" }

/-- An entry whose one action copies `X-Real-IP` to `X-Forwarded-For`. -/
def copyRealIP : ReverseProxy :=
  { HeaderActions := [{ Action := "copy", Source := "X-Real-IP", Target := "X-Forwarded-For" }],
    RawStaticCIDRs := [], staticCIDRS := [], DynamicCIDRs := [] }

/-- An entry whose one action renames `X-Real-IP` to `X-Forwarded-For`. -/
def renameRealIP : ReverseProxy :=
  { HeaderActions := [{ Action := "rename", Source := "X-Real-IP", Target := "X-Forwarded-For" }],
    RawStaticCIDRs := [], staticCIDRS := [], DynamicCIDRs := [] }

/-- The header `X-Real-IP: 1.2.3.4`, under its canonical key. -/
def headerRealIP : Header := fun k => if k = "X-Real-Ip" then ["1.2.3.4"] else []

/-- An entry whose one action copies `X-Forwarded-For` to itself. -/
def copyOntoItself : ReverseProxy :=
  { HeaderActions := [{ Action := "copy", Source := "X-Forwarded-For", Target := "X-Forwarded-For" }],
    RawStaticCIDRs := [], staticCIDRS := [], DynamicCIDRs := [] }

/-- An entry whose one action renames `X-Real-IP` to `x-real-ip`, which is the same
header. -/
def renameOntoItself : ReverseProxy :=
  { HeaderActions := [{ Action := "rename", Source := "X-Real-IP", Target := "x-real-ip" }],
    RawStaticCIDRs := [], staticCIDRS := [], DynamicCIDRs := [] }

/-- The header `X-Forwarded-For` with the two values `1.1.1.1` and `2.2.2.2`. -/
def headerTwoHops : Header := fun k => if k = "X-Forwarded-For" then ["1.1.1.1", "2.2.2.2"] else []

/-- The registry `{cloudflare: {}}` of the tests. -/
def cloudflareEmpty : Config :=
  { Custom403Response := none,
    Map := [("cloudflare",
      { HeaderActions := [], RawStaticCIDRs := [], staticCIDRS := [], DynamicCIDRs := [] })] }

/-- A registry whose one entry, without subnets, has a double quote in its name. -/
def quotedNameEmpty : Config :=
  { Custom403Response := none,
    Map := [("a\"b",
      { HeaderActions := [], RawStaticCIDRs := [], staticCIDRS := [], DynamicCIDRs := [] })] }

/-- A registry whose entry has a valid action and then an action without a source. -/
def cloudflareNoSource : Config :=
  { Custom403Response := none,
    Map := [("cloudflare",
      { HeaderActions := [{ Action := "delete", Source := "X-Old", Target := "" },
                          { Action := "!!!some random string!!!", Source := "", Target := "x" }],
        RawStaticCIDRs := ["127.0.0.1/32"], staticCIDRS := [], DynamicCIDRs := [] })] }

/-- As the first header-action test of the repository, under a name with a double
quote. -/
def quotedNameNoSource : Config :=
  { Custom403Response := none,
    Map := [("a\"b",
      { HeaderActions := [{ Action := "!!!some random string!!!", Source := "", Target := "" }],
        RawStaticCIDRs := ["127.0.0.1/32"], staticCIDRS := [], DynamicCIDRs := [] })] }

/-- A registry whose entry has one action with neither source nor action set. -/
def cloudflareNothingSet : Config :=
  { Custom403Response := none,
    Map := [("cloudflare",
      { HeaderActions := [{ Action := "", Source := "", Target := "" }],
        RawStaticCIDRs := ["127.0.0.1/32"], staticCIDRS := [], DynamicCIDRs := [] })] }

/-- The registry of one entry with the one static CIDR `300.1.1.1`. -/
def cloudflareBadOctet : Config :=
  { Custom403Response := none,
    Map := [("cloudflare",
      { HeaderActions := [], RawStaticCIDRs := ["300.1.1.1"], staticCIDRS := [], DynamicCIDRs := [] })] }

/-- The registry of one entry with a valid static CIDR and then the `127.0.0./33` of
the tests. -/
def cloudflareBadPrefix : Config :=
  { Custom403Response := none,
    Map := [("cloudflare",
      { HeaderActions := [], RawStaticCIDRs := ["10.0.0.0/8", "127.0.0./33"], staticCIDRS := [],
        DynamicCIDRs := [] })] }

/-- The subnet `2001:db8::/32`. -/
def net2001db8 : IPNet :=
  { IP := [0x20, 0x01, 0x0d, 0xb8, 0, 0, 0, 0, 0, 0, 0, 0, 0, 0, 0, 0],
    Mask := [255, 255, 255, 255, 0, 0, 0, 0, 0, 0, 0, 0, 0, 0, 0, 0] }

/-- The registry of one entry with the one static CIDR `2001:db8::1`, a bare IPv6
address. -/
def bareIPv6 : Config :=
  { Custom403Response := none,
    Map := [("edge",
      { HeaderActions := [], RawStaticCIDRs := ["2001:db8::1"], staticCIDRS := [],
        DynamicCIDRs := [] })] }

/-- A remote list, fetched with status 200, whose one line is `2001:db8::1`. -/
def listBareIPv6 : Observed :=
  { statErr := none, openErr := none, lines := [], getErr := none, StatusCode := 200,
    readErr := none, body := "2001:db8::1\n" }

/-- A dynamic source over HTTPS, not yet fetched. -/
def remoteSource : DynamicCIDR :=
  { Url := "https://example.org/list", interval := none, RawInterval := "", cidrList := [] }

/-- Every URL is accepted, every file exists and is empty, every host answers 200
with an empty body. -/
def reachable : Extern :=
  { isPrintWide := fun _ => false
    validRequestURI := fun _ => true
    observed := fun _ _ =>
      { statErr := none, openErr := none, lines := [], getErr := none, StatusCode := 200,
        readErr := none, body := "" } }

/-- The registry of one entry with one dynamic source whose interval is `60M`. -/
def cloudflareEveryMonth : Config :=
  { Custom403Response := none,
    Map := [("cloudflare",
      { HeaderActions := [], RawStaticCIDRs := [], staticCIDRS := [],
        DynamicCIDRs := [{ Url := "https://www.cloudflare.com/ips-v4", interval := none,
                           RawInterval := "60M", cidrList := [] }] })] }

/-- The registry of one entry with one dynamic source whose interval is the
`!!!invalid interval!!!` of the tests. -/
def cloudflareBadInterval : Config :=
  { Custom403Response := none,
    Map := [("cloudflare",
      { HeaderActions := [], RawStaticCIDRs := [], staticCIDRS := [],
        DynamicCIDRs := [{ Url := "https://www.cloudflare.com/ips-v4", interval := none,
                           RawInterval := "!!!invalid interval!!!", cidrList := [] }] })] }

/-- The registry of one entry with one dynamic source of the scheme `ftp`. -/
def cloudflareFtp : Config :=
  { Custom403Response := none,
    Map := [("cloudflare",
      { HeaderActions := [], RawStaticCIDRs := [], staticCIDRS := [],
        DynamicCIDRs := [{ Url := "ftp://example.org/list", interval := none,
                           RawInterval := "", cidrList := [] }] })] }

/-- A dynamic source over HTTPS whose current list is `10.0.0.0/8`. -/
def remoteWithList : DynamicCIDR :=
  { Url := "https://example.org/list", interval := none, RawInterval := "",
    cidrList := [{ IP := [10, 0, 0, 0], Mask := [255, 0, 0, 0] }] }

/-- A response with status 500. -/
def status500 : Observed :=
  { statErr := none, openErr := none, lines := [], getErr := none, StatusCode := 500,
    readErr := none, body := "" }

/-- A response with status 200 whose body has a valid line and then the line
`not-a-cidr`. -/
def listWithBadLine : Observed :=
  { statErr := none, openErr := none, lines := [], getErr := none, StatusCode := 200,
    readErr := none, body := "192.168.0.0/16\nnot-a-cidr\n" }

/-- A dynamic source read from a file, not yet fetched. -/
def fileSource : DynamicCIDR :=
  { Url := "file:///etc/trusted.txt", interval := none, RawInterval := "", cidrList := [] }

/-- A file of two valid lines with an empty line between them. -/
def fileWithEmptyLine : Observed :=
  { statErr := none, openErr := none, lines := ["10.0.0.0/8", "", "192.168.0.0/16"],
    getErr := none, StatusCode := 0, readErr := none, body := "" }

/-- The file `fileWithEmptyLine` with the empty line removed. -/
def fileWithoutEmptyLine : Observed :=
  { statErr := none, openErr := none, lines := ["10.0.0.0/8", "192.168.0.0/16"],
    getErr := none, StatusCode := 0, readErr := none, body := "" }

/-- The registry of one entry with one dynamic source whose interval is
`9223372037s`. -/
def cloudflareLongInterval : Config :=
  { Custom403Response := none,
    Map := [("cloudflare",
      { HeaderActions := [], RawStaticCIDRs := [], staticCIDRS := [],
        DynamicCIDRs := [{ Url := "https://www.cloudflare.com/ips-v4", interval := none,
                           RawInterval := "9223372037s", cidrList := [] }] })] }

/-- The subnet `10.0.0.0/8`. -/
def net10 : IPNet := { IP := [10, 0, 0, 0], Mask := [255, 0, 0, 0] }

/-- The subnet `192.168.0.0/16`. -/
def net192168 : IPNet := { IP := [192, 168, 0, 0], Mask := [255, 255, 0, 0] }

/-- An entry whose only source of subnets is the dynamic source `d`. -/
def entryOf (d : DynamicCIDR) : ReverseProxy :=
  { HeaderActions := [], RawStaticCIDRs := [], staticCIDRS := [], DynamicCIDRs := [d] }

/-- A response with status 200 whose body is the two lines `10.0.0.0/8` and
`192.168.0.0/16`. -/
def listTwoLines : Observed :=
  { statErr := none, openErr := none, lines := [], getErr := none, StatusCode := 200,
    readErr := none, body := "10.0.0.0/8\n192.168.0.0/16\n" }

/-- The source `remoteSource` once it holds the two subnets of `listTwoLines`. -/
def remoteFetched : DynamicCIDR := { remoteSource with cidrList := [net10, net192168] }

/-- A response with status 200 whose body has one hundred and fifty times the
valid line `192.168.0.0/16` and then the line `not-a-cidr`: 2261 bytes. -/
def listOversized : Observed :=
  { statErr := none, openErr := none, lines := [], getErr := none, StatusCode := 200,
    readErr := none,
    body := String.join (List.replicate 150 "192.168.0.0/16\n") ++ "not-a-cidr\n" }

/-! ## Theorems -/

/-! ### What the parsers of package `net` return -/

theorem parseIPv4FieldsLoop_length : ∀ (s : List Char) (first prevDot : Bool) (val digLen : Nat)
    (fields r : List Nat), fields.length ≤ 3 →
    parseIPv4FieldsLoop s first prevDot val digLen fields = some r → r.length = 4 := by
  intro s
  induction s with
  | nil =>
    intro first prevDot val digLen fields r hle h
    simp only [parseIPv4FieldsLoop] at h
    split at h
    · cases h
    · cases h
      simp
      omega
  | cons c rest ih =>
    intro first prevDot val digLen fields r hle h
    simp only [parseIPv4FieldsLoop] at h
    split at h
    · split at h
      · cases h
      · split at h
        · cases h
        · exact ih _ _ _ _ _ _ hle h
    · split at h
      · split at h
        · cases h
        · split at h
          · cases h
          · refine ih _ _ _ _ _ _ ?_ h
            simp
            omega
      · cases h

theorem parseIPv4Fields_length (s : List Char) (r : List Nat) (h : parseIPv4Fields s = some r) :
    r.length = 4 :=
  parseIPv4FieldsLoop_length s true false 0 0 [] r (by simp) h

theorem parseIPv6Loop_length : ∀ (fuel : Nat) (s : List Char) (ip : List Nat) (e : Option Nat)
    (rest : List Char) (ip1 : List Nat) (e1 : Option Nat),
    ip.length % 2 = 0 → ip.length ≤ 16 →
    parseIPv6Loop fuel s ip e = some (rest, ip1, e1) → ip1.length % 2 = 0 ∧ ip1.length ≤ 16 := by
  intro fuel
  induction fuel with
  | zero =>
    intro s ip e rest ip1 e1 hev hle h
    simp only [parseIPv6Loop, Option.some.injEq, Prod.mk.injEq] at h
    obtain ⟨-, rfl, -⟩ := h
    exact ⟨hev, hle⟩
  | succ fuel ih =>
    intro s ip e rest ip1 e1 hev hle h
    simp only [parseIPv6Loop] at h
    split at h
    · simp only [Option.some.injEq, Prod.mk.injEq] at h
      obtain ⟨-, rfl, -⟩ := h
      exact ⟨hev, hle⟩
    · rename_i hlt
      have hlt2 : ip.length < 16 := by simpa using hlt
      have h14 : ip.length + 2 ≤ 16 := by omega
      split at h
      · cases h
      · rename_i off acc rest0 _
        split at h
        · cases h
        · split at h
          · split at h
            · cases h
            · split at h
              · cases h
              · rename_i h16
                split at h
                · cases h
                · rename_i f hf
                  simp only [Option.some.injEq, Prod.mk.injEq] at h
                  obtain ⟨-, rfl, -⟩ := h
                  have := parseIPv4Fields_length _ _ hf
                  simp only [List.length_append, this]
                  omega
          · have hl : (ip ++ [acc / 256, acc % 256]).length = ip.length + 2 := by simp
            split at h
            · simp only [Option.some.injEq, Prod.mk.injEq] at h
              obtain ⟨-, rfl, -⟩ := h
              rw [hl]; omega
            · split at h
              · cases h
              · split at h
                · cases h
                · split at h
                  · split at h
                    · cases h
                    · split at h
                      · simp only [Option.some.injEq, Prod.mk.injEq] at h
                        obtain ⟨-, rfl, -⟩ := h
                        rw [hl]; omega
                      · exact ih _ _ _ _ _ _ (by rw [hl]; omega) (by rw [hl]; omega) h
                  · exact ih _ _ _ _ _ _ (by rw [hl]; omega) (by rw [hl]; omega) h




theorem parseIPv6Finish_length (x : Option (List Char × List Nat × Option Nat)) (r : List Nat)
    (hinv : ∀ rest ip e, x = some (rest, ip, e) → ip.length ≤ 16)
    (h : parseIPv6Finish x = some r) : r.length = 16 := by
  match x, hinv, h with
  | none, _, h => simp [parseIPv6Finish] at h
  | some (rest, ip, ellipsis), hinv, h =>
    have hle := hinv rest ip ellipsis rfl
    simp only [parseIPv6Finish] at h
    by_cases h1 : rest ≠ []
    · simp [h1] at h
    · rw [if_neg h1] at h
      by_cases h2 : ip.length < 16
      · rw [if_pos h2] at h
        cases ellipsis with
        | none => simp at h
        | some e =>
          simp only [Option.some.injEq] at h
          subst h
          simp only [List.length_append, List.length_take, List.length_replicate,
            List.length_drop]
          omega
      · rw [if_neg h2] at h
        by_cases h3 : ellipsis.isSome = true
        · simp [h3] at h
        · rw [if_neg h3] at h
          simp only [Option.some.injEq] at h
          subst h
          omega

theorem parseIPv6_length (s : List Char) (r : List Nat) (h : parseIPv6 s = some r) :
    r.length = 16 := by
  unfold parseIPv6 at h
  by_cases hz : '%' ∈ s
  · simp [hz] at h
  · rw [if_neg hz] at h
    split at h
    · cases h
      simp
    · exact parseIPv6Finish_length _ r
        (fun rest ip e hx => (parseIPv6Loop_length _ _ _ _ _ _ _ (by simp) (by simp) hx).2) h
    · exact parseIPv6Finish_length _ r
        (fun rest ip e hx => (parseIPv6Loop_length _ _ _ _ _ _ _ (by simp) (by simp) hx).2) h

theorem parseAddrFrom_length (whole : List Char) : ∀ (s : List Char) (is4 : Bool) (b : List Nat),
    parseAddrFrom whole s = some (is4, b) →
    b.length = 16 ∧ (is4 = true → b.take 12 = v4InV6Prefix) := by
  intro s
  induction s with
  | nil => intro is4 b h; simp [parseAddrFrom] at h
  | cons c rest ih =>
    intro is4 b h
    simp only [parseAddrFrom] at h
    split at h
    · simp only [Option.map_eq_some', Prod.mk.injEq] at h
      obtain ⟨f, hf, -, rfl⟩ := h
      have := parseIPv4Fields_length _ _ hf
      refine ⟨by simp [v4InV6Prefix, this], fun _ => ?_⟩
      simp [v4InV6Prefix]
    · split at h
      · simp only [Option.map_eq_some', Prod.mk.injEq] at h
        obtain ⟨f, hf, rfl, rfl⟩ := h
        exact ⟨parseIPv6_length _ _ hf, by simp⟩
      · split at h
        · cases h
        · exact ih _ _ h

theorem cidrMaskLoop_length : ∀ (l n : Nat), (cidrMaskLoop l n).length = l := by
  intro l
  induction l with
  | zero => intro n; simp [cidrMaskLoop]
  | succ l ih =>
    intro n
    simp only [cidrMaskLoop]
    split <;> simp [ih]

/-- A subnet that `net.ParseCIDR` returns has 4 bytes of address and of mask, or 16. -/
theorem ParseCIDR_valid (s : String) (n : IPNet) (h : ParseCIDR s = some n) : n.valid := by
  unfold ParseCIDR at h
  cases hcut : cutFirst '/' s.toList with
  | none => rw [hcut] at h; cases h
  | some p =>
    obtain ⟨addr, mask⟩ := p
    rw [hcut] at h
    dsimp only at h
    cases haddr : parseAddr addr with
    | none => rw [haddr] at h; cases h
    | some q =>
      obtain ⟨is4, addr16⟩ := q
      rw [haddr] at h
      dsimp only at h
      obtain ⟨h16, hpre⟩ := parseAddrFrom_length _ _ _ _ haddr
      by_cases hc : ¬ (dtoi mask).2.2 = true ∨ (dtoi mask).2.1 ≠ mask.length ∨
          (dtoi mask).1 > (if is4 = true then 32 else 128)
      · rw [if_pos hc] at h
        cases h
      · rw [if_neg hc] at h
        simp only [Option.some.injEq] at h
        subst h
        cases is4 with
        | false =>
          right
          simp [IP.Mask, CIDRMask, cidrMaskLoop_length, h16]
        | true =>
          left
          simp [IP.Mask, CIDRMask, cidrMaskLoop_length, h16, hpre rfl]

theorem To4_length (ip : IP) (h : IP.To4 ip ≠ []) : (IP.To4 ip).length = 4 := by
  unfold IP.To4 at h ⊢
  by_cases h4 : ip.length = 4
  · simp only [if_pos h4]
    exact h4
  · simp only [if_neg h4] at h ⊢
    by_cases hc : ip.length = 16 ∧ isZeros (ip.take 10) = true ∧ ip.getD 10 0 = 0xff ∧ ip.getD 11 0 = 0xff
    · simp only [if_pos hc]
      simp [hc.1]
    · simp only [if_neg hc] at h
      exact absurd rfl h

/-- A subnet of valid shape does not contain the nil address. -/
theorem Contains_nil_of_valid (n : IPNet) (h : n.valid) : n.Contains [] = false := by
  have hnn : (networkNumberAndMask n).1.length ≠ 0 := by
    unfold networkNumberAndMask
    by_cases h4 : IP.To4 n.IP = []
    · rcases h with ⟨h1, h2⟩ | ⟨h1, h2⟩
      · simp [IP.To4, h1] at h4
        simp [h4] at h1
      · simp [h4, h1, h2]
    · have hl := To4_length n.IP h4
      rcases h with ⟨h1, h2⟩ | ⟨h1, h2⟩
      · simp [h4, hl, h2]
      · simp [h4, hl, h2]
  unfold IPNet.Contains
  have h0 : IP.To4 ([] : IP) = [] := by simp [IP.To4]
  simp only [h0]
  simp
  intro hh
  exact absurd hh.symm hnn

/-! ### The request path -/

/-- C1 (the default rejection).  A configuration without `rewrite_403`
(`Custom403Response` nil, as `CreateConfig` leaves it) and with the one entry
`lan` is accepted by `New`; the request from `10.0.0.1:4711`, which `lan` does not
contain, then makes `ServeHTTP` dereference the nil pointer: it panics and writes
no 403.  This holds for every request that no entry contains.  With
`Custom403Response` present the rejection is written as claimed, `http.Error`
with the configured content and code, or with `""` and 403 when the code is 0. -/
theorem ServeHTTP_unmatched_without_override_panics :
    New offline { Custom403Response := none, Map := [("lan", lanRaw)] }
        = Step.ok { Custom403Response := none, Map := [("lan", lan)] } ∧
      lan.contains (ParseIP "10.0.0.1") = false ∧
      ServeHTTP { Custom403Response := none, Map := [("lan", lan)] }
        { RemoteAddr := "10.0.0.1:4711", Header := noHeader } = Outcome.panicked ∧
      (∀ (config : Config) (req : Request),
        config.Custom403Response = none →
        (∀ e ∈ config.Map, e.2.contains (ParseIP ((SplitN2 req.RemoteAddr ':').headD "")) = false) →
        ServeHTTP config req = Outcome.panicked) ∧
      (∀ (config : Config) (req : Request) (resp : ForbiddenResponse),
        config.Custom403Response = some resp →
        (∀ e ∈ config.Map, e.2.contains (ParseIP ((SplitN2 req.RemoteAddr ':').headD "")) = false) →
        ServeHTTP config req =
          if resp.code ≠ 0 then Outcome.rejected resp.content resp.code
          else Outcome.rejected "" 403) := by
  have hnone : ∀ (config : Config) (ip : IP),
      (∀ e ∈ config.Map, e.2.contains ip = false) → lookupTrustedIp config ip = none := by
    intro config ip h
    simp only [lookupTrustedIp, Option.map_eq_none', List.find?_eq_none]
    intro e he
    simp [h e he]
  refine ⟨by decide, by decide, by rfl, ?_, ?_⟩
  · intro config req hc h
    simp only [ServeHTTP, hnone config _ h, hc]
  · intro config req resp hc h
    simp only [ServeHTTP, hnone config _ h, hc, StatusForbidden]

/-- The membership test is the union of the subnets of the entry. -/
theorem contains_eq_true_iff (r : ReverseProxy) (ip : IP) :
    r.contains ip = true ↔
      ∃ n : IPNet, (n ∈ r.staticCIDRS ∨ ∃ d ∈ r.DynamicCIDRs, n ∈ d.cidrList) ∧
        n.Contains ip = true := by
  unfold ReverseProxy.contains
  constructor
  · intro h
    by_cases hs : (r.staticCIDRS.any fun trustedCIDR => trustedCIDR.Contains ip) = true
    · obtain ⟨n, hn, hc⟩ := List.any_eq_true.mp hs
      exact ⟨n, Or.inl hn, hc⟩
    · by_cases hd : (r.DynamicCIDRs.any fun trustedCIDRList =>
          trustedCIDRList.cidrList.any fun trustedCIDR => trustedCIDR.Contains ip) = true
      · obtain ⟨d, hd1, hd2⟩ := List.any_eq_true.mp hd
        obtain ⟨n, hn, hc⟩ := List.any_eq_true.mp hd2
        exact ⟨n, Or.inr ⟨d, hd1, hn⟩, hc⟩
      · simp [hs, hd] at h
  · rintro ⟨n, hn | ⟨d, hd, hn⟩, hc⟩
    · have hs : (r.staticCIDRS.any fun trustedCIDR => trustedCIDR.Contains ip) = true :=
        List.any_eq_true.mpr ⟨n, hn, hc⟩
      simp [hs]
    · have hd2 : (r.DynamicCIDRs.any fun trustedCIDRList =>
          trustedCIDRList.cidrList.any fun trustedCIDR => trustedCIDR.Contains ip) = true :=
        List.any_eq_true.mpr ⟨d, hd, List.any_eq_true.mpr ⟨n, hn, hc⟩⟩
      simp [hd2]

/-- C2 (membership is a pure union).  `contains` is true exactly when some subnet
of the static set or of the current list of some dynamic source contains the
address; reordering the static subnets or the dynamic sources does not change the
answer; and the entry whose only subnet is the static `192.168.0.0/16` contains
`192.168.1.1` and does not contain `10.0.0.1`. -/
theorem contains_is_union_of_subnets :
    (∀ (r : ReverseProxy) (ip : IP),
      r.contains ip = true ↔
        ∃ n : IPNet, (n ∈ r.staticCIDRS ∨ ∃ d ∈ r.DynamicCIDRs, n ∈ d.cidrList) ∧
          n.Contains ip = true) ∧
    (∀ (r r' : ReverseProxy) (ip : IP),
      r.staticCIDRS.Perm r'.staticCIDRS → r.DynamicCIDRs.Perm r'.DynamicCIDRs →
      r.contains ip = r'.contains ip) ∧
    (ParseCIDR "192.168.0.0/16" = some { IP := [192, 168, 0, 0], Mask := [255, 255, 0, 0] } ∧
      lan.staticCIDRS = [{ IP := [192, 168, 0, 0], Mask := [255, 255, 0, 0] }] ∧
      lan.DynamicCIDRs = [] ∧
      lan.contains (ParseIP "192.168.1.1") = true ∧
      lan.contains (ParseIP "10.0.0.1") = false) := by
  refine ⟨contains_eq_true_iff, ?_, by decide⟩
  intro r r' ip hs hd
  rw [Bool.eq_iff_iff, contains_eq_true_iff, contains_eq_true_iff]
  constructor
  · rintro ⟨n, hn | ⟨d, hd1, hn⟩, hc⟩
    · exact ⟨n, Or.inl (hs.mem_iff.mp hn), hc⟩
    · exact ⟨n, Or.inr ⟨d, hd.mem_iff.mp hd1, hn⟩, hc⟩
  · rintro ⟨n, hn | ⟨d, hd1, hn⟩, hc⟩
    · exact ⟨n, Or.inl (hs.mem_iff.mpr hn), hc⟩
    · exact ⟨n, Or.inr ⟨d, hd.mem_iff.mpr hd1, hn⟩, hc⟩

/-- The lookup finds nothing exactly when no entry contains the address. -/
theorem lookupTrustedIp_eq_none_iff (config : Config) (ip : IP) :
    lookupTrustedIp config ip = none ↔ ∀ e ∈ config.Map, e.2.contains ip = false := by
  simp [lookupTrustedIp, List.find?_eq_none]

/-- C3, as it stands, fails.  The map with the entries `a` and `b`, which both
hold `10.0.0.0/8`, is one Go map whichever entry `range` yields first.  When
`range` yields `a` first the lookup for `10.1.2.3` returns `edgeA` and the request
is forwarded without `X-A`; when it yields `b` first the lookup returns `edgeB`
and the request is forwarded with `X-A` and without `X-B`. -/
theorem lookupTrustedIp_not_fixed_by_configuration :
    [("a", edgeA), ("b", edgeB)].Perm [("b", edgeB), ("a", edgeA)] ∧
    edgeA.contains (ParseIP "10.1.2.3") = true ∧
    edgeB.contains (ParseIP "10.1.2.3") = true ∧
    lookupTrustedIp { Custom403Response := none, Map := [("a", edgeA), ("b", edgeB)] }
      (ParseIP "10.1.2.3") = some edgeA ∧
    lookupTrustedIp { Custom403Response := none, Map := [("b", edgeB), ("a", edgeA)] }
      (ParseIP "10.1.2.3") = some edgeB ∧
    edgeA ≠ edgeB ∧
    (∃ h1 h2 : Header,
      ServeHTTP { Custom403Response := none, Map := [("a", edgeA), ("b", edgeB)] }
        { RemoteAddr := "10.1.2.3:80", Header := headerAB } = Outcome.forwarded h1 ∧
      ServeHTTP { Custom403Response := none, Map := [("b", edgeB), ("a", edgeA)] }
        { RemoteAddr := "10.1.2.3:80", Header := headerAB } = Outcome.forwarded h2 ∧
      h1 "X-A" = [] ∧ h1 "X-B" = ["2"] ∧ h2 "X-A" = ["1"] ∧ h2 "X-B" = []) := by
  refine ⟨List.Perm.swap _ _ _, by decide, by decide, by decide, by decide, by decide, ?_⟩
  refine ⟨edgeA.applyHeaderOptions headerAB, edgeB.applyHeaderOptions headerAB,
    by rfl, by rfl, by decide, by decide, by decide, by decide⟩

/-- C3, amended.  The lookup returns `nil` exactly when no entry contains the
address; an entry it returns contains the address and is the first to do so in
the order in which `range` yields the entries of the map; and whether it returns
an entry at all does not depend on that order. -/
theorem lookupTrustedIp_first_in_range_order (config : Config) (ip : IP) :
    (lookupTrustedIp config ip = none ↔ ∀ e ∈ config.Map, e.2.contains ip = false) ∧
    (∀ r : ReverseProxy, lookupTrustedIp config ip = some r →
      r.contains ip = true ∧
      ∃ (pre : List (String × ReverseProxy)) (name : String) (post : List (String × ReverseProxy)),
        config.Map = pre ++ (name, r) :: post ∧ ∀ e ∈ pre, e.2.contains ip = false) ∧
    (∀ config' : Config, config.Map.Perm config'.Map →
      (lookupTrustedIp config ip).isSome = (lookupTrustedIp config' ip).isSome) := by
  refine ⟨lookupTrustedIp_eq_none_iff config ip, ?_, ?_⟩
  · intro r h
    simp only [lookupTrustedIp, Option.map_eq_some'] at h
    obtain ⟨e, he, rfl⟩ := h
    obtain ⟨hp, pre, post, hmap, hpre⟩ := List.find?_eq_some.mp he
    refine ⟨hp, pre, e.1, post, hmap, ?_⟩
    intro x hx
    simpa using hpre x hx
  · intro config' hperm
    rw [Bool.eq_iff_iff, ← not_iff_not]
    simp only [Option.not_isSome_iff_eq_none, lookupTrustedIp_eq_none_iff]
    constructor
    · intro h e he
      exact h e (hperm.mem_iff.mpr he)
    · intro h e he
      exact h e (hperm.mem_iff.mp he)

theorem cutFirst_none_of_not_mem (sep : Char) : ∀ s : List Char, sep ∉ s → cutFirst sep s = none := by
  intro s
  induction s with
  | nil => intro _; rfl
  | cons c rest ih =>
    intro h
    simp only [List.mem_cons, not_or] at h
    have hc : ¬ c = sep := fun e => h.1 e.symm
    simp [cutFirst, hc, ih h.2]

theorem cutFirst_append (sep : Char) : ∀ (a b : List Char), sep ∉ a →
    cutFirst sep (a ++ sep :: b) = some (a, b) := by
  intro a
  induction a with
  | nil => intro b _; simp [cutFirst]
  | cons c rest ih =>
    intro b h
    simp only [List.mem_cons, not_or] at h
    have hc : ¬ c = sep := fun e => h.1 e.symm
    simp [cutFirst, hc, ih b h.2]

theorem cutFirst_fst_not_mem (sep : Char) : ∀ (s a b : List Char),
    cutFirst sep s = some (a, b) → sep ∉ a ∧ s = a ++ sep :: b := by
  intro s
  induction s with
  | nil => intro a b h; simp [cutFirst] at h
  | cons c rest ih =>
    intro a b h
    simp only [cutFirst] at h
    by_cases hc : c = sep
    · rw [if_pos hc] at h
      simp only [Option.some.injEq, Prod.mk.injEq] at h
      obtain ⟨rfl, rfl⟩ := h
      simp [hc]
    · rw [if_neg hc] at h
      cases hr : cutFirst sep rest with
      | none => rw [hr] at h; cases h
      | some p =>
        obtain ⟨a1, b1⟩ := p
        rw [hr] at h
        simp only [Option.some.injEq, Prod.mk.injEq] at h
        obtain ⟨rfl, rfl⟩ := h
        obtain ⟨h1, h2⟩ := ih a1 b1 hr
        refine ⟨?_, by simp [h2]⟩
        simp only [List.mem_cons, not_or]
        exact ⟨fun e => hc e.symm, h1⟩

theorem SplitN2_head_bare (host : String) (h : ':' ∉ host.toList) :
    (SplitN2 host ':').headD "" = host := by
  unfold SplitN2
  rw [cutFirst_none_of_not_mem ':' host.toList h]
  rfl

theorem SplitN2_head_port (host port : String) (h : ':' ∉ host.toList) :
    (SplitN2 (host ++ ":" ++ port) ':').headD "" = host := by
  have e : (host ++ ":" ++ port).toList = host.toList ++ ':' :: port.toList := by
    simp [String.toList]
  simp only [SplitN2, e, cutFirst_append ':' _ _ h]
  rfl

/-- The text `ServeHTTP` takes as the host, `ipParts[0]`, has no colon. -/
theorem SplitN2_head_no_colon (addr : String) : ':' ∉ ((SplitN2 addr ':').headD "").toList := by
  unfold SplitN2
  cases hc : cutFirst ':' addr.toList with
  | none =>
    simp only [List.headD_cons]
    intro hmem
    have : ∀ s : List Char, ':' ∈ s → cutFirst ':' s ≠ none := by
      intro s
      induction s with
      | nil => intro h; simp at h
      | cons c rest ih =>
        intro h
        simp only [cutFirst]
        by_cases hcc : c = ':'
        · simp [hcc]
        · rw [if_neg hcc]
          have hr : ':' ∈ rest := by
            rcases List.mem_cons.mp h with h1 | h1
            · exact absurd h1.symm hcc
            · exact h1
          have := ih hr
          cases hx : cutFirst ':' rest with
          | none => exact absurd hx this
          | some p => simp
    exact this _ hmem hc
  | some p =>
    obtain ⟨a, b⟩ := p
    simp only [List.headD_cons]
    exact (cutFirst_fst_not_mem ':' _ _ _ hc).1

theorem parseAddrFrom_no_colon (whole : List Char) (h4 : parseIPv4Fields whole = none) :
    ∀ s : List Char, ':' ∉ s → parseAddrFrom whole s = none := by
  intro s
  induction s with
  | nil => intro _; rfl
  | cons c rest ih =>
    intro h
    simp only [List.mem_cons, not_or] at h
    have hc : ¬ c = ':' := fun e => h.1 e.symm
    simp only [parseAddrFrom, h4, Option.map_none', hc, if_false]
    split
    · rfl
    · split
      · rfl
      · exact ih h.2

theorem ParseIP_nil_of_not_ipv4 (host : String) (hcolon : ':' ∉ host.toList)
    (h4 : parseIPv4Fields host.toList = none) : ParseIP host = [] := by
  unfold ParseIP parseAddr
  rw [parseAddrFrom_no_colon host.toList h4 host.toList hcolon]

theorem lookupTrustedIp_nil (config : Config) (hnets : config.subnetsParsed) :
    lookupTrustedIp config [] = none := by
  rw [lookupTrustedIp_eq_none_iff]
  intro e he
  rw [Bool.eq_false_iff]
  intro hc
  obtain ⟨n, hn, hcont⟩ := (contains_eq_true_iff e.2 []).mp hc
  obtain ⟨s, hs⟩ := hnets e he n hn
  rw [Contains_nil_of_valid n (ParseCIDR_valid s n hs)] at hcont
  cases hcont

/-- When the text before the first colon is not a dotted IPv4 address, the peer
address is nil, no entry is found and the request is not forwarded. -/
theorem ServeHTTP_not_forwarded (config : Config) (req : Request)
    (hnets : config.subnetsParsed)
    (h4 : parseIPv4Fields ((SplitN2 req.RemoteAddr ':').headD "").toList = none) :
    ParseIP ((SplitN2 req.RemoteAddr ':').headD "") = [] ∧
    lookupTrustedIp config (ParseIP ((SplitN2 req.RemoteAddr ':').headD "")) = none ∧
    ∀ h : Header, ServeHTTP config req ≠ Outcome.forwarded h := by
  have hip := ParseIP_nil_of_not_ipv4 _ (SplitN2_head_no_colon req.RemoteAddr) h4
  have hl := lookupTrustedIp_nil config hnets
  refine ⟨hip, by rw [hip]; exact hl, ?_⟩
  intro h
  simp only [ServeHTTP, hip, hl]
  cases config.Custom403Response with
  | none => simp
  | some resp =>
    simp only
    split <;> simp

theorem parseIPv4Fields_bracket (rest : List Char) : parseIPv4Fields ('[' :: rest) = none := by
  simp [parseIPv4Fields, parseIPv4FieldsLoop]

theorem SplitN2_head_bracket (addr : String) (rest : List Char) (h : addr.toList = '[' :: rest) :
    ∃ rest1 : List Char, ((SplitN2 addr ':').headD "").toList = '[' :: rest1 := by
  unfold SplitN2
  rw [h]
  simp only [cutFirst]
  rw [if_neg (by decide)]
  cases cutFirst ':' rest with
  | none => exact ⟨rest, by simpa using h⟩
  | some p => exact ⟨p.1, by simp⟩

/-- C4 (the peer address of a request).  The entry `v6`, which holds
`2001:db8::/32`, is accepted by `New` and contains `2001:db8::1`; yet for the
remote address `[2001:db8::1]:443` the handler splits at the first colon, takes
`[2001` for the host, which is no IP address, and rejects the request with 403.
The same holds for every remote address that starts with a bracket: it is never
forwarded.  For a host without a colon, as an IPv4 literal is, the handler does
take the host with the port stripped and forwards the request to the entry the
lookup finds for it. -/
theorem ServeHTTP_rejects_bracketed_IPv6_peer :
    New offline { Custom403Response := some emptyOverride, Map := [("v6", v6Raw)] }
        = Step.ok { Custom403Response := some emptyOverride, Map := [("v6", v6)] } ∧
    v6.contains (ParseIP "2001:db8::1") = true ∧
    (SplitN2 "[2001:db8::1]:443" ':').headD "" = "[2001" ∧
    ParseIP "[2001" = [] ∧
    ServeHTTP { Custom403Response := some emptyOverride, Map := [("v6", v6)] }
      { RemoteAddr := "[2001:db8::1]:443", Header := noHeader } = Outcome.rejected "" 403 ∧
    (∀ (config : Config) (req : Request) (rest : List Char),
      config.subnetsParsed → req.RemoteAddr.toList = '[' :: rest →
      ∀ h : Header, ServeHTTP config req ≠ Outcome.forwarded h) ∧
    (∀ (config : Config) (host port : String) (hdr : Header) (r : ReverseProxy),
      ':' ∉ host.toList → lookupTrustedIp config (ParseIP host) = some r →
      ServeHTTP config { RemoteAddr := host ++ ":" ++ port, Header := hdr }
        = Outcome.forwarded (r.applyHeaderOptions hdr)) := by
  refine ⟨by decide, by decide, by decide, by decide, by rfl, ?_, ?_⟩
  · intro config req rest hnets haddr
    obtain ⟨rest1, hr⟩ := SplitN2_head_bracket req.RemoteAddr rest haddr
    refine (ServeHTTP_not_forwarded config req hnets ?_).2.2
    rw [hr]
    exact parseIPv4Fields_bracket rest1
  · intro config host port hdr r hcolon hl
    simp only [ServeHTTP, SplitN2_head_port host port hcolon, hl]

/-- C5, as it stands, fails.  The remote address `192.168.1.1` has no colon, so it
is not a `host:port` pair; the handler takes the whole of it for the host, finds
the entry `lan` for it and forwards the request. -/
theorem ServeHTTP_forwards_address_without_port :
    cutFirst ':' "192.168.1.1".toList = none ∧
    lookupTrustedIp { Custom403Response := some emptyOverride, Map := [("lan", lan)] }
      (ParseIP ((SplitN2 "192.168.1.1" ':').headD "")) = some lan ∧
    ServeHTTP { Custom403Response := some emptyOverride, Map := [("lan", lan)] }
      { RemoteAddr := "192.168.1.1", Header := noHeader } = Outcome.forwarded noHeader := by
  refine ⟨by decide, by decide, by rfl⟩

/-- C5, amended (fail closed).  Let `host` be the text of the remote address before
its first colon, or the whole of it when it has no colon.  When `host` is not an
IPv4 address in dotted decimal form, then, whatever subnets `net.ParseCIDR` has
produced for the configuration, the address `ServeHTTP` looks up is nil, the
lookup finds no entry, and the request is not forwarded. -/
theorem ServeHTTP_fails_closed (config : Config) (req : Request) (host : String)
    (hnets : config.subnetsParsed)
    (hcolon : ':' ∉ host.toList)
    (haddr : req.RemoteAddr = host ∨ ∃ port : String, req.RemoteAddr = host ++ ":" ++ port)
    (hbad : parseIPv4Fields host.toList = none) :
    (SplitN2 req.RemoteAddr ':').headD "" = host ∧
    ParseIP host = [] ∧
    lookupTrustedIp config (ParseIP host) = none ∧
    ∀ h : Header, ServeHTTP config req ≠ Outcome.forwarded h := by
  have hh : (SplitN2 req.RemoteAddr ':').headD "" = host := by
    rcases haddr with h | ⟨port, h⟩
    · rw [h]; exact SplitN2_head_bare host hcolon
    · rw [h]; exact SplitN2_head_port host port hcolon
  have := ServeHTTP_not_forwarded config req hnets (by rw [hh]; exact hbad)
  rw [hh] at this
  exact ⟨hh, this⟩

/-- C5 at a concrete input: the remote address `localhost:8080` and the entry `lan`. -/
theorem ServeHTTP_fails_closed_witness :
    (SplitN2 "localhost:8080" ':').headD "" = "localhost" ∧
    ParseIP "localhost" = [] ∧
    lookupTrustedIp { Custom403Response := some emptyOverride, Map := [("lan", lan)] }
      (ParseIP "localhost") = none ∧
    ∀ h : Header,
      ServeHTTP { Custom403Response := some emptyOverride, Map := [("lan", lan)] }
        { RemoteAddr := "localhost:8080", Header := noHeader } ≠ Outcome.forwarded h :=
  ServeHTTP_fails_closed { Custom403Response := some emptyOverride, Map := [("lan", lan)] }
    { RemoteAddr := "localhost:8080", Header := noHeader } "localhost"
    (by
      intro e he n hn
      simp only [List.mem_singleton] at he
      subst he
      refine ⟨"192.168.0.0/16", ?_⟩
      rcases hn with hn | ⟨d, hd, -⟩
      · simp only [lan, List.mem_singleton] at hn
        subst hn
        decide
      · simp [lan] at hd)
    (by decide) (Or.inr ⟨"8080", by decide⟩) (by decide)

/-! ### The header transform -/

/-- `strings.Contains` says that the text occurs in the string. -/
theorem Contains_iff (s sub : String) : Contains s sub = true ↔ sub.toList <:+: s.toList := by
  simp [Contains]

theorem Contains_append_left (a b x : String) (h : Contains a x = true) :
    Contains (a ++ b) x = true := by
  rw [Contains_iff] at h ⊢
  have e : (a ++ b).toList = a.toList ++ b.toList := by simp [String.toList]
  rw [e]
  exact h.trans (List.infix_append' [] a.toList b.toList)

theorem Contains_append_right (a b x : String) (h : Contains b x = true) :
    Contains (a ++ b) x = true := by
  rw [Contains_iff] at h ⊢
  have e : (a ++ b).toList = a.toList ++ b.toList := by simp [String.toList]
  rw [e]
  exact h.trans (List.suffix_append a.toList b.toList).isInfix

theorem Contains_self (a : String) : Contains a a = true := by
  rw [Contains_iff]

theorem Contains_of_infix (a x : String) (pre post : String) (h : a = pre ++ x ++ post) :
    Contains a x = true := by
  subst h
  exact Contains_append_left _ _ _ (Contains_append_right _ _ _ (Contains_self x))

theorem appendEscapedRune_plain (wide : Nat → Bool) (c : Char)
    (h : c.toNat ≠ 34 ∧ c.toNat ≠ 92 ∧ IsPrint wide c = true) : appendEscapedRune wide c = [c] := by
  simp [appendEscapedRune, h.1, h.2.1, h.2.2]

/-- What `%q` writes for a name of plain characters: the name between double quotes. -/
theorem Quote_plain (wide : Nat → Bool) (n : String)
    (h : ∀ c ∈ n.toList, c.toNat ≠ 34 ∧ c.toNat ≠ 92 ∧ IsPrint wide c = true) :
    Quote wide n = "\"" ++ n ++ "\"" := by
  have e : ∀ l : List Char, (∀ c ∈ l, c.toNat ≠ 34 ∧ c.toNat ≠ 92 ∧ IsPrint wide c = true) →
      l.flatMap (appendEscapedRune wide) = l := by
    intro l
    induction l with
    | nil => intro _; rfl
    | cons c rest ih =>
      intro hl
      simp only [List.flatMap_cons]
      rw [appendEscapedRune_plain wide c (hl c (List.mem_cons_self _ _)),
        ih (fun x hx => hl x (List.mem_cons_of_mem _ hx))]
      rfl
  unfold Quote
  rw [e n.toList h]
  apply String.ext
  simp [String.toList]

theorem Contains_Quote_plain (wide : Nat → Bool) (n : String)
    (h : ∀ c ∈ n.toList, c.toNat ≠ 34 ∧ c.toNat ≠ 92 ∧ IsPrint wide c = true) :
    Contains (Quote wide n) n = true :=
  Contains_of_infix _ _ "\"" "\"" (Quote_plain wide n h)

/-- C6, as it stands, fails.  The action that copies `X-Forwarded-For` to itself
passes validation.  On a request whose `X-Forwarded-For` has the two values
`1.1.1.1` and `2.2.2.2` the source has the non-empty value `1.1.1.1`, and after
`applyHeaderOptions` the header holds `1.1.1.1` alone: the source header has
changed. -/
theorem copy_onto_itself_changes_source :
    copyOntoItself.HeaderActions =
      [{ Action := ActionCopy, Source := "X-Forwarded-For", Target := "X-Forwarded-For" }] ∧
    New_headerActions (fun _ => false) "edge" 0 copyOntoItself.HeaderActions = none ∧
    headerTwoHops.Get "X-Forwarded-For" = "1.1.1.1" ∧
    headerTwoHops "X-Forwarded-For" = ["1.1.1.1", "2.2.2.2"] ∧
    (copyOntoItself.applyHeaderOptions headerTwoHops) "X-Forwarded-For" = ["1.1.1.1"] ∧
    (copyOntoItself.applyHeaderOptions headerTwoHops) "X-Forwarded-For"
      ≠ headerTwoHops "X-Forwarded-For" := by
  refine ⟨by decide, by decide, by decide, by decide, by decide, by decide⟩

/-- C6, amended (the action `copy`).  Let `v` be the value `Header.Get` returns for
the source.  When `v` is not empty, the target header holds exactly `v` after
`applyHeaderOptions`, every header other than the target is unchanged, and so is
the source header when source and target have different canonical keys.  When
`v` is empty (the source is absent or its first value is empty), the header set is
unchanged. -/
theorem applyHeaderOptions_copy (r : ReverseProxy) (h : Header) (source target : String)
    (hr : r.HeaderActions = [{ Action := ActionCopy, Source := source, Target := target }]) :
    (h.Get source ≠ "" →
      (r.applyHeaderOptions h) (CanonicalMIMEHeaderKey target) = [h.Get source] ∧
      (CanonicalMIMEHeaderKey source ≠ CanonicalMIMEHeaderKey target →
        (r.applyHeaderOptions h) (CanonicalMIMEHeaderKey source)
          = h (CanonicalMIMEHeaderKey source)) ∧
      ∀ k : String, k ≠ CanonicalMIMEHeaderKey target → (r.applyHeaderOptions h) k = h k) ∧
    (h.Get source = "" → r.applyHeaderOptions h = h) := by
  have e : r.applyHeaderOptions h =
      if h.Get source ≠ "" then (h.Del target).Add target (h.Get source) else h := by
    simp [ReverseProxy.applyHeaderOptions, hr, applyHeaderAction]
  constructor
  · intro hv
    rw [e, if_pos hv]
    refine ⟨by simp [Header.Add, Header.Del], ?_, ?_⟩
    · intro hne
      simp [Header.Add, Header.Del, hne]
    · intro k hk
      simp [Header.Add, Header.Del, hk]
  · intro hv
    rw [e, if_neg (by simpa using hv)]

/-- C6 at a concrete input: `X-Real-IP: 1.2.3.4` copied to the absent
`X-Forwarded-For`. -/
theorem applyHeaderOptions_copy_witness :
    headerRealIP.Get "X-Real-IP" = "1.2.3.4" ∧
    (copyRealIP.applyHeaderOptions headerRealIP) "X-Forwarded-For" = ["1.2.3.4"] ∧
    (copyRealIP.applyHeaderOptions headerRealIP) "X-Real-Ip" = ["1.2.3.4"] :=
  have t := applyHeaderOptions_copy copyRealIP headerRealIP "X-Real-IP" "X-Forwarded-For" rfl
  have u := t.1 (by decide)
  ⟨by decide, u.1, u.2.1 (by decide)⟩

/-- C7, as it stands, fails.  The action that renames `X-Real-IP` to `x-real-ip`
passes validation; both names have the canonical key `X-Real-Ip`.  On a request
with `X-Real-IP: 1.2.3.4` the source header is still there, with the value
`1.2.3.4`, after `applyHeaderOptions`. -/
theorem rename_onto_itself_keeps_source :
    renameOntoItself.HeaderActions =
      [{ Action := ActionRename, Source := "X-Real-IP", Target := "x-real-ip" }] ∧
    New_headerActions (fun _ => false) "edge" 0 renameOntoItself.HeaderActions = none ∧
    headerRealIP.Get "X-Real-IP" = "1.2.3.4" ∧
    (renameOntoItself.applyHeaderOptions headerRealIP).Get "X-Real-IP" = "1.2.3.4" ∧
    (renameOntoItself.applyHeaderOptions headerRealIP) (CanonicalMIMEHeaderKey "X-Real-IP")
      = ["1.2.3.4"] := by
  refine ⟨by decide, by decide, by decide, by decide, by decide⟩

/-- C7, amended (the action `rename`).  Let `v` be the value `Header.Get` returns
for the source.  When `v` is not empty, the target header holds exactly `v` after
`applyHeaderOptions`, the source header is absent when source and target have
different canonical keys, and every header other than these two is unchanged.
When `v` is empty, the header set is unchanged. -/
theorem applyHeaderOptions_rename (r : ReverseProxy) (h : Header) (source target : String)
    (hr : r.HeaderActions = [{ Action := ActionRename, Source := source, Target := target }]) :
    (h.Get source ≠ "" →
      (r.applyHeaderOptions h) (CanonicalMIMEHeaderKey target) = [h.Get source] ∧
      (CanonicalMIMEHeaderKey source ≠ CanonicalMIMEHeaderKey target →
        (r.applyHeaderOptions h) (CanonicalMIMEHeaderKey source) = [] ∧
        (r.applyHeaderOptions h).Get source = "") ∧
      ∀ k : String, k ≠ CanonicalMIMEHeaderKey target → k ≠ CanonicalMIMEHeaderKey source →
        (r.applyHeaderOptions h) k = h k) ∧
    (h.Get source = "" → r.applyHeaderOptions h = h) := by
  have e : r.applyHeaderOptions h =
      if h.Get source ≠ "" then ((h.Del source).Del target).Add target (h.Get source) else h := by
    simp [ReverseProxy.applyHeaderOptions, hr, applyHeaderAction, ActionRename, ActionCopy]
  constructor
  · intro hv
    rw [e, if_pos hv]
    refine ⟨by simp [Header.Add, Header.Del], ?_, ?_⟩
    · intro hne
      simp [Header.Add, Header.Del, Header.Get, hne]
    · intro k hk hk2
      simp [Header.Add, Header.Del, hk, hk2]
  · intro hv
    rw [e, if_neg (by simpa using hv)]

/-- C7 at a concrete input: `X-Real-IP: 1.2.3.4` renamed to `X-Forwarded-For`. -/
theorem applyHeaderOptions_rename_witness :
    headerRealIP.Get "X-Real-IP" = "1.2.3.4" ∧
    (renameRealIP.applyHeaderOptions headerRealIP) "X-Forwarded-For" = ["1.2.3.4"] ∧
    (renameRealIP.applyHeaderOptions headerRealIP) "X-Real-Ip" = [] ∧
    (renameRealIP.applyHeaderOptions headerRealIP).Get "X-Real-IP" = "" :=
  have t := applyHeaderOptions_rename renameRealIP headerRealIP "X-Real-IP" "X-Forwarded-For" rfl
  have u := t.1 (by decide)
  ⟨by decide, u.1, (u.2.1 (by decide)).1, (u.2.1 (by decide)).2⟩

/-- An error for the only entry of the registry is the error of `New`. -/
theorem New_single_failed (ext : Extern) (config : Config) (n : String) (proxy : ReverseProxy)
    (msg : String) (hmap : config.Map = [(n, proxy)])
    (h : New_proxy ext 0 n proxy = Step.failed msg) : New ext config = Step.failed msg := by
  simp [New, hmap, New_map, h]

/-- An error of the loop over the header actions is the error for the entry, when
the entry has a subnet source. -/
theorem New_proxy_headerActions_failed (ext : Extern) (j : Nat) (n : String) (proxy : ReverseProxy)
    (msg : String) (hsub : proxy.RawStaticCIDRs ≠ [] ∨ proxy.DynamicCIDRs ≠ [])
    (h : New_headerActions ext.isPrintWide n 0 proxy.HeaderActions = some msg) :
    New_proxy ext j n proxy = Step.failed msg := by
  have hc : ¬ (proxy.DynamicCIDRs.length = 0 ∧ proxy.RawStaticCIDRs.length = 0) := by
    rintro ⟨h1, h2⟩
    rcases hsub with hs | hs
    · exact hs (List.length_eq_zero.mp h2)
    · exact hs (List.length_eq_zero.mp h1)
  simp only [New_proxy, if_neg hc, h]

/-- The loop over the header actions goes past a well-formed action. -/
theorem New_headerActions_wellFormed (wide : Nat → Bool) (name : String) (i : Nat)
    (act : HeaderAction) (rest : List HeaderAction) (h : act.wellFormed) :
    New_headerActions wide name i (act :: rest) = New_headerActions wide name (i + 1) rest := by
  obtain ⟨hs, ha, ht⟩ := h
  rcases ha with ha | ha | ha
  · simp [New_headerActions, hs, ha, ActionCopy, ht (Or.inl ha)]
  · simp [New_headerActions, hs, ha, ActionCopy, ActionRename, ht (Or.inr ha)]
  · simp [New_headerActions, hs, ha, ActionCopy, ActionRename, ActionDelete]

/-- The loop over the header actions goes past well-formed actions, counting them. -/
theorem New_headerActions_append (wide : Nat → Bool) (name : String) :
    ∀ (pre rest : List HeaderAction) (i : Nat), (∀ a ∈ pre, a.wellFormed) →
    New_headerActions wide name i (pre ++ rest) = New_headerActions wide name (i + pre.length) rest := by
  intro pre
  induction pre with
  | nil => intro rest i _; rfl
  | cons a pre ih =>
    intro rest i h
    rw [List.cons_append, New_headerActions_wellFormed wide name i a _ (h a (List.mem_cons_self _ _)),
      ih rest (i + 1) (fun x hx => h x (List.mem_cons_of_mem _ hx))]
    simp only [List.length_cons]
    congr 1
    omega

/-- The text of the error for action number `i`, by the reason the action is
refused for. -/
theorem New_headerActions_offending (wide : Nat → Bool) (name : String) (i : Nat)
    (act : HeaderAction) (rest : List HeaderAction) (h : ¬ act.wellFormed) :
    ∃ reason : String,
      New_headerActions wide name i (act :: rest) =
        some ("error in " ++ Quote wide name ++ " reverse proxy configuration: action #" ++
          uitoa i ++ reason) ∧
      (act.Source = "" → reason = " must contain the \"source\" option") ∧
      (act.Source ≠ "" → act.Action = "" → reason = " must contain the \"action\" option") ∧
      (act.Source ≠ "" → act.Action ≠ "" →
        act.Action ≠ "copy" → act.Action ≠ "rename" → act.Action ≠ "delete" →
        reason = " of the type \"" ++ act.Action ++ "\" is not valid") ∧
      (act.Source ≠ "" → (act.Action = "copy" ∨ act.Action = "rename") → act.Target = "" →
        reason = " must contain the \"target\" option") := by
  by_cases hs : act.Source = ""
  · refine ⟨" must contain the \"source\" option", ?_, fun _ => rfl, ?_, ?_, ?_⟩
    · simp [New_headerActions, hs]
    · intro h1; exact absurd hs h1
    · intro h1; exact absurd hs h1
    · intro h1; exact absurd hs h1
  · by_cases hcr : act.Action = "copy" ∨ act.Action = "rename"
    · have ht : act.Target = "" := by
        by_contra ht
        exact h ⟨hs, by rcases hcr with h1 | h1 <;> simp [h1], fun _ => ht⟩
      refine ⟨" must contain the \"target\" option", ?_, ?_, ?_, ?_, fun _ _ _ => rfl⟩
      · simp [New_headerActions, hs, hcr, ht, ActionCopy, ActionRename]
      · intro h1; exact absurd h1 hs
      · intro _ h1
        rcases hcr with h2 | h2 <;> simp [h2] at h1
      · intro _ _ h1 h2 _
        rcases hcr with h3 | h3
        · exact absurd h3 h1
        · exact absurd h3 h2
    · have hd : act.Action ≠ "delete" := by
        intro hd
        exact h ⟨hs, Or.inr (Or.inr hd), fun hx => absurd hx hcr⟩
      rw [not_or] at hcr
      by_cases he : act.Action = ""
      · refine ⟨" must contain the \"action\" option", ?_, ?_, fun _ _ => rfl, ?_, ?_⟩
        · simp [New_headerActions, hs, he, ActionCopy, ActionRename, ActionDelete]
        · intro h1; exact absurd h1 hs
        · intro _ h1; exact absurd he h1
        · intro _ h1; rcases h1 with h1 | h1 <;> simp [he] at h1
      · refine ⟨" of the type \"" ++ act.Action ++ "\" is not valid", ?_, ?_, ?_,
          fun _ _ _ _ _ => rfl, ?_⟩
        · simp [New_headerActions, hs, he, hcr.1, hcr.2, hd, ActionCopy, ActionRename,
            ActionDelete, String.append_assoc]
        · intro h1; exact absurd h1 hs
        · intro _ h1; exact absurd h1 he
        · intro _ h1; rcases h1 with h1 | h1
          · exact absurd h1 hcr.1
          · exact absurd h1 hcr.2

/-! ### Construction -/

theorem Contains_action_number (q u reason : String) :
    Contains ("error in " ++ q ++ " reverse proxy configuration: action #" ++ u ++ reason)
      ("action #" ++ u) = true := by
  apply Contains_of_infix _ _ ("error in " ++ q ++ " reverse proxy configuration: ") reason
  apply String.ext
  simp [String.data_append]

theorem Contains_quoted_name (q rest : String) :
    Contains ("error in " ++ q ++ rest) q = true :=
  Contains_append_left _ _ _ (Contains_append_right _ _ _ (Contains_self q))

theorem Contains_type_reason (a : String) :
    Contains (" of the type \"" ++ a ++ "\" is not valid") ("type \"" ++ a ++ "\" is not valid")
      = true := by
  apply Contains_of_infix _ _ " of the " ""
  apply String.ext
  simp [String.data_append]

/-- C8, amended (an entry without subnets).  For a registry whose only entry `n`
has no static CIDR and no dynamic source, `New` returns an error whose text
contains the name as `%q` writes it (`strconv.Quote`) and `no configured subnets`;
it contains `n` itself when `n` is made of printable characters other than the
double quote and the backslash, which `%q` writes as they are. -/
theorem New_no_subnets_error (ext : Extern) (config : Config) (n : String) (proxy : ReverseProxy)
    (hmap : config.Map = [(n, proxy)])
    (hs : proxy.RawStaticCIDRs = []) (hd : proxy.DynamicCIDRs = []) :
    ∃ msg : String, New ext config = Step.failed msg ∧
      Contains msg (Quote ext.isPrintWide n) = true ∧
      Contains msg "no configured subnets" = true ∧
      (plainName ext.isPrintWide n → Contains msg n = true) := by
  refine ⟨"error in " ++ Quote ext.isPrintWide n ++
    " reverse proxy configuration: no configured subnets (CIDRs). This middleware will not be used",
    ?_, Contains_quoted_name _ _, Contains_append_right _ _ _ (by decide), ?_⟩
  · apply New_single_failed ext config n proxy _ hmap
    simp [New_proxy, hs, hd]
  · intro hp
    exact Contains_append_left _ _ _ (Contains_append_right _ _ _ (Contains_Quote_plain _ n hp))

/-- C8 at a concrete input: the registry `{cloudflare: {}}` of the tests. -/
theorem New_no_subnets_error_witness :
    ∃ msg : String, New offline cloudflareEmpty = Step.failed msg ∧
      Contains msg "\"cloudflare\"" = true ∧
      Contains msg "no configured subnets" = true ∧
      Contains msg "cloudflare" = true :=
  let ⟨msg, h1, h2, h3, h4⟩ :=
    New_no_subnets_error offline cloudflareEmpty "cloudflare" _ rfl rfl rfl
  ⟨msg, h1, h2, h3, h4 (by unfold plainName; decide)⟩

set_option maxRecDepth 100000 in
/-- C8, as it stands, fails.  For the entry name `a"b` the error of `New` holds the
name as `%q` writes it, with a backslash before the double quote, and the name
itself does not occur in the text. -/
theorem New_no_subnets_error_escapes_name :
    New offline quotedNameEmpty = Step.failed
      "error in \"a\\\"b\" reverse proxy configuration: no configured subnets (CIDRs). This middleware will not be used" ∧
    Contains
      "error in \"a\\\"b\" reverse proxy configuration: no configured subnets (CIDRs). This middleware will not be used"
      "a\"b" = false := by
  refine ⟨by decide, by decide⟩

/-- C9, amended (an action without a source).  For a registry whose only entry `n`
has a subnet source and whose header actions are valid up to, and not including,
action number `i`, which has an empty source, `New` returns an error whose text
contains the name as `%q` writes it, `action #i` and
`must contain the "source" option`, whatever the other fields of that action are;
it contains `n` itself when `n` is made of printable characters other than the
double quote and the backslash. -/
theorem New_missing_source_error (ext : Extern) (config : Config) (n : String)
    (proxy : ReverseProxy) (pre : List HeaderAction) (act : HeaderAction)
    (post : List HeaderAction)
    (hmap : config.Map = [(n, proxy)])
    (hsub : proxy.RawStaticCIDRs ≠ [] ∨ proxy.DynamicCIDRs ≠ [])
    (hacts : proxy.HeaderActions = pre ++ act :: post)
    (hpre : ∀ a ∈ pre, a.wellFormed)
    (hsrc : act.Source = "") :
    ∃ msg : String, New ext config = Step.failed msg ∧
      Contains msg (Quote ext.isPrintWide n) = true ∧
      Contains msg ("action #" ++ uitoa pre.length) = true ∧
      Contains msg "must contain the \"source\" option" = true ∧
      (plainName ext.isPrintWide n → Contains msg n = true) := by
  have hbad : ¬ act.wellFormed := fun h => h.1 hsrc
  obtain ⟨reason, hmsg, hr, -⟩ :=
    New_headerActions_offending ext.isPrintWide n (0 + pre.length) act post hbad
  rw [hr hsrc, Nat.zero_add] at hmsg
  refine ⟨"error in " ++ Quote ext.isPrintWide n ++ " reverse proxy configuration: action #" ++
    uitoa pre.length ++ " must contain the \"source\" option", ?_, ?_,
    Contains_action_number _ _ _, Contains_append_right _ _ _ (by decide), ?_⟩
  · apply New_single_failed ext config n proxy _ hmap
    apply New_proxy_headerActions_failed ext 0 n proxy _ hsub
    rw [hacts, New_headerActions_append ext.isPrintWide n pre _ 0 hpre, Nat.zero_add]
    exact hmsg
  · simp only [String.append_assoc]
    exact Contains_quoted_name _ _
  · intro hp
    simp only [String.append_assoc]
    exact Contains_append_right _ _ _
      (Contains_append_left _ _ _ (Contains_Quote_plain _ n hp))

/-- C9 at a concrete input: a valid `delete` and then an action without a source,
which is action number 1. -/
theorem New_missing_source_error_witness :
    ∃ msg : String, New offline cloudflareNoSource = Step.failed msg ∧
      Contains msg "\"cloudflare\"" = true ∧
      Contains msg "action #1" = true ∧
      Contains msg "must contain the \"source\" option" = true ∧
      Contains msg "cloudflare" = true :=
  let ⟨msg, h1, h2, h3, h4, h5⟩ :=
    New_missing_source_error offline cloudflareNoSource "cloudflare" _
      [{ Action := "delete", Source := "X-Old", Target := "" }]
      { Action := "!!!some random string!!!", Source := "", Target := "x" } []
      rfl (Or.inl (by decide)) rfl (by decide) rfl
  ⟨msg, h1, h2, h3, h4, h5 (by unfold plainName; decide)⟩

set_option maxRecDepth 100000 in
/-- C9, as it stands, fails.  For the entry name `a"b` the error for the action
without a source does not contain the name. -/
theorem New_missing_source_error_escapes_name :
    New offline quotedNameNoSource = Step.failed
      "error in \"a\\\"b\" reverse proxy configuration: action #0 must contain the \"source\" option" ∧
    Contains
      "error in \"a\\\"b\" reverse proxy configuration: action #0 must contain the \"source\" option"
      "a\"b" = false := by
  refine ⟨by decide, by decide⟩

set_option maxRecDepth 100000 in
/-- C10, as it stands, fails.  An action with neither source nor action has an
empty action, and the error is the one about the source: the text
`must contain the "action" option` does not occur in it. -/
theorem New_empty_action_without_source :
    New offline cloudflareNothingSet = Step.failed
      "error in \"cloudflare\" reverse proxy configuration: action #0 must contain the \"source\" option" ∧
    Contains
      "error in \"cloudflare\" reverse proxy configuration: action #0 must contain the \"source\" option"
      "must contain the \"action\" option" = false := by
  refine ⟨by decide, by decide⟩

/-- The loop over the header actions passes exactly the lists of well-formed actions. -/
theorem New_headerActions_eq_none_iff (wide : Nat → Bool) (name : String) :
    ∀ (acts : List HeaderAction) (i : Nat),
    New_headerActions wide name i acts = none ↔ ∀ a ∈ acts, a.wellFormed := by
  intro acts
  induction acts with
  | nil => intro i; simp [New_headerActions]
  | cons a rest ih =>
    intro i
    by_cases ha : a.wellFormed
    · rw [New_headerActions_wellFormed wide name i a rest ha, ih (i + 1)]
      simp [ha]
    · obtain ⟨reason, hmsg, -⟩ := New_headerActions_offending wide name i a rest ha
      rw [hmsg]
      simp [ha]

/-- C10, amended (validation of the header actions).  The loop of `New` over the
header actions passes exactly when every action is well formed: a non-empty
source, an action among `copy`, `rename` and `delete`, a non-empty target for
`copy` and `rename`.  Otherwise, with `act` the first action that is not well
formed and `pre` the actions before it, the loop yields an error, which `New`
returns for a registry whose only entry has these actions and a subnet source;
its text contains `action #` and the number of `act`, and
`must contain the "source" option` when the source of `act` is empty; when the
source is not empty, `must contain the "action" option` for an empty action,
`type "<action>" is not valid` for an action that is none of the three, and
`must contain the "target" option` for `copy` or `rename` without a target. -/
theorem New_headerActions_accepts_iff (ext : Extern) (name : String) (acts : List HeaderAction) :
    (New_headerActions ext.isPrintWide name 0 acts = none ↔ ∀ a ∈ acts, a.wellFormed) ∧
    (∀ (pre : List HeaderAction) (act : HeaderAction) (post : List HeaderAction),
      acts = pre ++ act :: post → (∀ a ∈ pre, a.wellFormed) → ¬ act.wellFormed →
      ∃ msg : String,
        New_headerActions ext.isPrintWide name 0 acts = some msg ∧
        (∀ (config : Config) (proxy : ReverseProxy),
          config.Map = [(name, proxy)] → proxy.HeaderActions = acts →
          (proxy.RawStaticCIDRs ≠ [] ∨ proxy.DynamicCIDRs ≠ []) →
          New ext config = Step.failed msg) ∧
        Contains msg ("action #" ++ uitoa pre.length) = true ∧
        (act.Source = "" → Contains msg "must contain the \"source\" option" = true) ∧
        (act.Source ≠ "" → act.Action = "" →
          Contains msg "must contain the \"action\" option" = true) ∧
        (act.Source ≠ "" → act.Action ≠ "" →
          act.Action ≠ "copy" → act.Action ≠ "rename" → act.Action ≠ "delete" →
          Contains msg ("type \"" ++ act.Action ++ "\" is not valid") = true) ∧
        (act.Source ≠ "" → (act.Action = "copy" ∨ act.Action = "rename") → act.Target = "" →
          Contains msg "must contain the \"target\" option" = true)) := by
  refine ⟨New_headerActions_eq_none_iff ext.isPrintWide name acts 0, ?_⟩
  intro pre act post hacts hpre hbad
  obtain ⟨reason, hmsg, h1, h2, h3, h4⟩ :=
    New_headerActions_offending ext.isPrintWide name (0 + pre.length) act post hbad
  rw [Nat.zero_add] at hmsg
  have hm : New_headerActions ext.isPrintWide name 0 acts = some
      ("error in " ++ Quote ext.isPrintWide name ++ " reverse proxy configuration: action #" ++
        uitoa pre.length ++ reason) := by
    rw [hacts, New_headerActions_append ext.isPrintWide name pre _ 0 hpre, Nat.zero_add]
    exact hmsg
  refine ⟨_, hm, ?_, Contains_action_number _ _ _, ?_, ?_, ?_, ?_⟩
  · intro config proxy hmap hpa hsub
    apply New_single_failed ext config name proxy _ hmap
    apply New_proxy_headerActions_failed ext 0 name proxy _ hsub
    rw [hpa]
    exact hm
  · intro hs
    rw [h1 hs]
    exact Contains_append_right _ _ _ (by decide)
  · intro hs ha
    rw [h2 hs ha]
    exact Contains_append_right _ _ _ (by decide)
  · intro hs ha hc hr hd
    rw [h3 hs ha hc hr hd]
    exact Contains_append_right _ _ _ (Contains_type_reason _)
  · intro hs ha ht
    rw [h4 hs ha ht]
    exact Contains_append_right _ _ _ (by decide)

/-! ### Static CIDRs -/

/-- The loop over the static CIDRs goes past the strings that parse. -/
theorem New_staticCIDRs_append (wide : Nat → Bool) (name : String) :
    ∀ (pre rest : List String) (acc : List IPNet),
    (∀ t ∈ pre, ParseCIDR (withDefaultPrefix t) ≠ none) →
    ∃ acc1 : List IPNet,
      New_staticCIDRs wide name (pre ++ rest) acc = New_staticCIDRs wide name rest acc1 := by
  intro pre
  induction pre with
  | nil => intro rest acc _; exact ⟨acc, rfl⟩
  | cons t pre ih =>
    intro rest acc h
    have ht := h t (List.mem_cons_self _ _)
    cases hp : ParseCIDR (withDefaultPrefix t) with
    | none => exact absurd hp ht
    | some cidr =>
      obtain ⟨acc1, h1⟩ := ih rest (acc ++ [cidr]) (fun x hx => h x (List.mem_cons_of_mem _ hx))
      refine ⟨acc1, ?_⟩
      unfold withDefaultPrefix at hp
      rw [List.cons_append]
      simp only [New_staticCIDRs, hp]
      exact h1

/-- The loop over the static CIDRs stops at a string that does not parse, with the
error that names the text it has tried to parse. -/
theorem New_staticCIDRs_invalid (wide : Nat → Bool) (name s : String) (post : List String)
    (acc : List IPNet) (hs : ParseCIDR (withDefaultPrefix s) = none) :
    New_staticCIDRs wide name (s :: post) acc =
      Step.failed ("error in " ++ Quote wide name ++
        " reverse proxy configuration: the static CIDR " ++ Quote wide (withDefaultPrefix s) ++
        " is invalid") := by
  unfold withDefaultPrefix at hs
  simp only [New_staticCIDRs, hs]
  rfl

/-- An error of the loop over the static CIDRs is the error for the entry, when the
header actions pass. -/
theorem New_proxy_staticCIDRs_failed (ext : Extern) (j : Nat) (n : String) (proxy : ReverseProxy)
    (msg : String) (hsub : proxy.RawStaticCIDRs ≠ [] ∨ proxy.DynamicCIDRs ≠ [])
    (hacts : New_headerActions ext.isPrintWide n 0 proxy.HeaderActions = none)
    (h : New_staticCIDRs ext.isPrintWide n proxy.RawStaticCIDRs proxy.staticCIDRS = Step.failed msg) :
    New_proxy ext j n proxy = Step.failed msg := by
  have hc : ¬ (proxy.DynamicCIDRs.length = 0 ∧ proxy.RawStaticCIDRs.length = 0) := by
    rintro ⟨h1, h2⟩
    rcases hsub with hs | hs
    · exact hs (List.length_eq_zero.mp h2)
    · exact hs (List.length_eq_zero.mp h1)
  simp only [New_proxy, if_neg hc, hacts, h]

/-- C11, amended (a static CIDR that does not parse).  For a registry whose only
entry `n` has well-formed header actions and whose static CIDR list has `s` as the
first string that does not parse, `New` returns an error whose text contains the
name as `%q` writes it and, as `%q` writes it and followed by ` is invalid`, the
text that was parsed: `s` itself when `s` has a slash, `s` followed by `/32` when
it has none.  The text contains `n` itself when `n` is made of printable
characters other than the double quote and the backslash. -/
theorem New_invalid_static_error (ext : Extern) (config : Config) (n : String)
    (proxy : ReverseProxy) (pre : List String) (s : String) (post : List String)
    (hmap : config.Map = [(n, proxy)])
    (hacts : ∀ a ∈ proxy.HeaderActions, a.wellFormed)
    (hraw : proxy.RawStaticCIDRs = pre ++ s :: post)
    (hpre : ∀ t ∈ pre, ParseCIDR (withDefaultPrefix t) ≠ none)
    (hs : ParseCIDR (withDefaultPrefix s) = none) :
    ∃ msg : String, New ext config = Step.failed msg ∧
      Contains msg (Quote ext.isPrintWide n) = true ∧
      Contains msg (Quote ext.isPrintWide (withDefaultPrefix s) ++ " is invalid") = true ∧
      (Contains s "/" = true → Contains msg (Quote ext.isPrintWide s ++ " is invalid") = true) ∧
      (Contains s "/" = false →
        Contains msg (Quote ext.isPrintWide (s ++ "/32") ++ " is invalid") = true) ∧
      (plainName ext.isPrintWide n → Contains msg n = true) := by
  have hmsg : New ext config = Step.failed ("error in " ++ Quote ext.isPrintWide n ++
      " reverse proxy configuration: the static CIDR " ++
      Quote ext.isPrintWide (withDefaultPrefix s) ++ " is invalid") := by
    apply New_single_failed ext config n proxy _ hmap
    apply New_proxy_staticCIDRs_failed ext 0 n proxy _ (Or.inl (by rw [hraw]; simp))
      ((New_headerActions_eq_none_iff ext.isPrintWide n proxy.HeaderActions 0).mpr hacts)
    obtain ⟨acc1, h1⟩ := New_staticCIDRs_append ext.isPrintWide n pre (s :: post)
      proxy.staticCIDRS hpre
    rw [hraw, h1]
    exact New_staticCIDRs_invalid ext.isPrintWide n s post acc1 hs
  have hq : Contains ("error in " ++ Quote ext.isPrintWide n ++
      " reverse proxy configuration: the static CIDR " ++
      Quote ext.isPrintWide (withDefaultPrefix s) ++ " is invalid")
      (Quote ext.isPrintWide (withDefaultPrefix s) ++ " is invalid") = true := by
    rw [String.append_assoc]
    exact Contains_append_right _ _ _ (Contains_self _)
  refine ⟨_, hmsg, ?_, hq, ?_, ?_, ?_⟩
  · simp only [String.append_assoc]
    exact Contains_quoted_name _ _
  · intro hc
    have e : withDefaultPrefix s = s := by simp [withDefaultPrefix, hc]
    rw [e] at hq
    rw [e]
    exact hq
  · intro hc
    have e : withDefaultPrefix s = s ++ "/32" := by simp [withDefaultPrefix, hc]
    rw [e] at hq
    rw [e]
    exact hq
  · intro hp
    simp only [String.append_assoc]
    exact Contains_append_right _ _ _
      (Contains_append_left _ _ _ (Contains_Quote_plain _ n hp))

set_option maxRecDepth 100000 in
/-- C11 at a concrete input: the string `127.0.0./33` of the tests, after a string
that parses. -/
theorem New_invalid_static_error_witness :
    ∃ msg : String, New offline cloudflareBadPrefix = Step.failed msg ∧
      Contains msg "\"cloudflare\"" = true ∧
      Contains msg "\"127.0.0./33\" is invalid" = true ∧
      Contains msg "cloudflare" = true :=
  let ⟨msg, h1, h2, _, h4, _, h6⟩ :=
    New_invalid_static_error offline cloudflareBadPrefix "cloudflare" _
      ["10.0.0.0/8"] "127.0.0./33" [] rfl (by decide) rfl (by decide) (by decide)
  ⟨msg, h1, h2, h4 (by decide), h6 (by unfold plainName; decide)⟩

set_option maxRecDepth 100000 in
/-- C11, as it stands, fails.  For the static CIDR `300.1.1.1`, which is no IP
address, the error names `300.1.1.1/32`, the text that was parsed: the configured
string, quoted and followed by ` is invalid`, does not occur in it. -/
theorem New_invalid_static_error_names_parsed_text :
    New offline cloudflareBadOctet = Step.failed
      "error in \"cloudflare\" reverse proxy configuration: the static CIDR \"300.1.1.1/32\" is invalid" ∧
    Quote offline.isPrintWide "300.1.1.1" ++ " is invalid" = "\"300.1.1.1\" is invalid" ∧
    Contains
      "error in \"cloudflare\" reverse proxy configuration: the static CIDR \"300.1.1.1/32\" is invalid"
      "\"300.1.1.1\" is invalid" = false := by
  refine ⟨by decide, by decide, by decide⟩
/-! ### Bare addresses -/

/-- `strings.Contains(s, "/")` says that the string has a slash. -/
theorem Contains_slash_iff (s : String) : Contains s "/" = true ↔ '/' ∈ s.toList := by
  rw [Contains_iff]
  constructor
  · intro h
    exact h.subset (by simp)
  · intro h
    obtain ⟨a, b, hab⟩ := List.append_of_mem h
    exact ⟨a, b, by rw [hab]; simp⟩

/-- A text that `netip.parseIPv4Fields` accepts is made of digits and dots, and has
a dot. -/
theorem parseIPv4FieldsLoop_chars : ∀ (s : List Char) (first prevDot : Bool) (val digLen : Nat)
    (fields r : List Nat),
    parseIPv4FieldsLoop s first prevDot val digLen fields = some r →
    (∀ c ∈ s, (48 ≤ c.toNat ∧ c.toNat ≤ 57) ∨ c = '.') ∧ (fields.length < 3 → '.' ∈ s) := by
  intro s
  induction s with
  | nil =>
    intro first prevDot val digLen fields r h
    simp only [parseIPv4FieldsLoop] at h
    by_cases hl : fields.length < 3
    · rw [if_pos hl] at h; cases h
    · exact ⟨by simp, fun h3 => absurd h3 hl⟩
  | cons c rest ih =>
    intro first prevDot val digLen fields r h
    simp only [parseIPv4FieldsLoop] at h
    by_cases hd : 48 ≤ c.toNat ∧ c.toNat ≤ 57
    · rw [if_pos hd] at h
      by_cases h1 : digLen = 1 ∧ val = 0
      · rw [if_pos h1] at h; cases h
      · rw [if_neg h1] at h
        by_cases h2 : val * 10 + (c.toNat - 48) > 255
        · rw [if_pos h2] at h; cases h
        · rw [if_neg h2] at h
          obtain ⟨g1, g2⟩ := ih _ _ _ _ _ _ h
          refine ⟨?_, fun h3 => List.mem_cons_of_mem _ (g2 h3)⟩
          intro x hx
          rcases List.mem_cons.mp hx with rfl | hx
          · exact Or.inl hd
          · exact g1 x hx
    · rw [if_neg hd] at h
      by_cases hdot : c = '.'
      · rw [if_pos hdot] at h
        by_cases h1 : first = true ∨ rest = [] ∨ prevDot = true
        · rw [if_pos h1] at h; cases h
        · rw [if_neg h1] at h
          by_cases h2 : fields.length = 3
          · rw [if_pos h2] at h; cases h
          · rw [if_neg h2] at h
            obtain ⟨g1, -⟩ := ih _ _ _ _ _ _ h
            refine ⟨?_, fun _ => by simp [hdot]⟩
            intro x hx
            rcases List.mem_cons.mp hx with rfl | hx
            · exact Or.inr hdot
            · exact g1 x hx
      · rw [if_neg hdot] at h; cases h

/-- The octets that `netip.parseIPv4Fields` returns are at most 255. -/
theorem parseIPv4FieldsLoop_bytes : ∀ (s : List Char) (first prevDot : Bool) (val digLen : Nat)
    (fields r : List Nat), val ≤ 255 → (∀ b ∈ fields, b ≤ 255) →
    parseIPv4FieldsLoop s first prevDot val digLen fields = some r → ∀ b ∈ r, b ≤ 255 := by
  intro s
  induction s with
  | nil =>
    intro first prevDot val digLen fields r hv hf h
    simp only [parseIPv4FieldsLoop] at h
    by_cases hl : fields.length < 3
    · rw [if_pos hl] at h; cases h
    · rw [if_neg hl] at h
      simp only [Option.some.injEq] at h
      subst h
      intro b hb
      rcases List.mem_append.mp hb with hb | hb
      · exact hf b hb
      · simp only [List.mem_singleton] at hb
        subst hb
        exact hv
  | cons c rest ih =>
    intro first prevDot val digLen fields r hv hf h
    simp only [parseIPv4FieldsLoop] at h
    by_cases hd : 48 ≤ c.toNat ∧ c.toNat ≤ 57
    · rw [if_pos hd] at h
      by_cases h1 : digLen = 1 ∧ val = 0
      · rw [if_pos h1] at h; cases h
      · rw [if_neg h1] at h
        by_cases h2 : val * 10 + (c.toNat - 48) > 255
        · rw [if_pos h2] at h; cases h
        · rw [if_neg h2] at h
          exact ih _ _ _ _ _ _ (by omega) hf h
    · rw [if_neg hd] at h
      by_cases hdot : c = '.'
      · rw [if_pos hdot] at h
        by_cases h1 : first = true ∨ rest = [] ∨ prevDot = true
        · rw [if_pos h1] at h; cases h
        · rw [if_neg h1] at h
          by_cases h2 : fields.length = 3
          · rw [if_pos h2] at h; cases h
          · rw [if_neg h2] at h
            refine ih _ _ _ _ _ _ (by omega) ?_ h
            intro b hb
            rcases List.mem_append.mp hb with hb | hb
            · exact hf b hb
            · simp only [List.mem_singleton] at hb
              subst hb
              exact hv
      · rw [if_neg hdot] at h; cases h

/-- A text of digits and dots, with a dot, is read by the IPv4 parser. -/
theorem parseAddrFrom_v4 (whole : List Char) : ∀ s : List Char,
    (∀ c ∈ s, (48 ≤ c.toNat ∧ c.toNat ≤ 57) ∨ c = '.') → '.' ∈ s →
    parseAddrFrom whole s = (parseIPv4Fields whole).map fun f => (true, v4InV6Prefix ++ f) := by
  intro s
  induction s with
  | nil => intro _ h; simp at h
  | cons c rest ih =>
    intro hc hdot
    simp only [parseAddrFrom]
    by_cases h1 : c = '.'
    · rw [if_pos h1]
    · rw [if_neg h1]
      have hd : 48 ≤ c.toNat ∧ c.toNat ≤ 57 := by
        rcases hc c (List.mem_cons_self _ _) with h | h
        · exact h
        · exact absurd h h1
      have h2 : ¬ c = ':' := by
        intro e; subst e; revert hd; decide
      have h3 : ¬ c = '%' := by
        intro e; subst e; revert hd; decide
      rw [if_neg h2, if_neg h3]
      apply ih (fun x hx => hc x (List.mem_cons_of_mem _ hx))
      rcases List.mem_cons.mp hdot with h | h
      · exact absurd h.symm h1
      · exact h


/-- A byte is unchanged by the mask 255. -/
theorem byte_and_255 (a : Nat) (h : a ≤ 255) : a &&& 255 = a := by
  have := Nat.and_pow_two_sub_one_eq_mod a 8
  simp only [Nat.reducePow, Nat.add_one_sub_one, Nat.reduceSub] at this
  rw [this]
  omega

/-- For a dotted IPv4 address without a prefix, the text that is parsed is the
address followed by `/32`, and `net.ParseCIDR` returns the address itself under
the mask of 32 ones. -/
theorem ParseCIDR_bare_IPv4 (s : String) (f : List Nat)
    (h : parseIPv4Fields s.toList = some f) :
    withDefaultPrefix s = s ++ "/32" ∧
    ParseCIDR (withDefaultPrefix s) = some { IP := f, Mask := [255, 255, 255, 255] } := by
  obtain ⟨hchars, hdot⟩ := parseIPv4FieldsLoop_chars _ _ _ _ _ _ _ h
  have hdot := hdot (by simp)
  have hslash : '/' ∉ s.toList := by
    intro hm
    rcases hchars _ hm with h1 | h1
    · revert h1; decide
    · revert h1; decide
  have hc : Contains s "/" = false := by
    rw [Bool.eq_false_iff, ne_eq, Contains_slash_iff]
    exact hslash
  have e : withDefaultPrefix s = s ++ "/32" := by simp [withDefaultPrefix, hc]
  refine ⟨e, ?_⟩
  rw [e]
  have hlen := parseIPv4Fields_length _ _ h
  have hbytes := parseIPv4FieldsLoop_bytes _ _ _ _ _ _ _ (by omega) (by simp) h
  have hl : (s ++ "/32").toList = s.toList ++ '/' :: ['3', '2'] := by
    simp [String.toList]
  have haddr : parseAddr s.toList = some (true, v4InV6Prefix ++ f) := by
    unfold parseAddr
    rw [parseAddrFrom_v4 s.toList s.toList hchars hdot, h]
    rfl
  unfold ParseCIDR
  rw [hl, cutFirst_append '/' _ _ hslash]
  dsimp only
  rw [haddr]
  dsimp only
  have hd : dtoi ['3', '2'] = (32, 2, true) := by decide
  rw [hd]
  have hm : CIDRMask 32 32 = [255, 255, 255, 255] := by decide
  simp only [hm]
  match f, hlen, hbytes with
  | [a, b, c, d], _, hb =>
    have ha := byte_and_255 a (hb a (by simp))
    have hb2 := byte_and_255 b (hb b (by simp))
    have hc2 := byte_and_255 c (hb c (by simp))
    have hd2 := byte_and_255 d (hb d (by simp))
    simp [IP.Mask, v4InV6Prefix, hm, ha, hb2, hc2, hd2]

/-- The subnet of one IPv4 address contains that address and no other. -/
theorem Contains_host_IPv4 (s : String) (f : List Nat)
    (h : parseIPv4Fields s.toList = some f) :
    IPNet.Contains { IP := f, Mask := [255, 255, 255, 255] } (ParseIP s) = true ∧
    ∀ ip : IP, (∀ b ∈ ip, b ≤ 255) →
      IPNet.Contains { IP := f, Mask := [255, 255, 255, 255] } ip = true → IP.To4 ip = f := by
  obtain ⟨hchars, hdot⟩ := parseIPv4FieldsLoop_chars _ _ _ _ _ _ _ h
  have hdot := hdot (by simp)
  have hlen := parseIPv4Fields_length _ _ h
  have hip : ParseIP s = v4InV6Prefix ++ f := by
    unfold ParseIP parseAddr
    rw [parseAddrFrom_v4 s.toList s.toList hchars hdot, h]
    rfl
  have hf := parseIPv4FieldsLoop_bytes _ _ _ _ _ _ _ (by omega) (by simp) h
  match f, hlen, hf with
  | [a, b, c, d], _, hf =>
    have hnm : networkNumberAndMask { IP := [a, b, c, d], Mask := [255, 255, 255, 255] }
        = ([a, b, c, d], [255, 255, 255, 255]) := by
      simp [networkNumberAndMask, IP.To4]
    constructor
    · rw [hip]
      unfold IPNet.Contains
      rw [hnm]
      simp [IP.To4, v4InV6Prefix, isZeros, List.range, List.range.loop]
    · intro ip hb hcont
      unfold IPNet.Contains at hcont
      rw [hnm] at hcont
      simp only [ne_eq, ite_not] at hcont
      have key : ∀ x : IP, (∀ b ∈ x, b ≤ 255) →
          (if x.length ≠ 4 then false
            else (List.range x.length).all fun i =>
              ([a, b, c, d].getD i 0 &&& [255, 255, 255, 255].getD i 0) ==
                (x.getD i 0 &&& [255, 255, 255, 255].getD i 0)) = true →
          x = [a, b, c, d] := by
        intro x hx hall
        by_cases hl : x.length ≠ 4
        · rw [if_pos hl] at hall; cases hall
        · rw [if_neg hl] at hall
          have hl4 : x.length = 4 := by simpa using hl
          match x, hl4, hx, hall with
          | [x0, x1, x2, x3], _, hx, hall =>
            simp [List.range, List.range.loop, byte_and_255 x0 (hx x0 (by simp)),
              byte_and_255 x1 (hx x1 (by simp)), byte_and_255 x2 (hx x2 (by simp)),
              byte_and_255 x3 (hx x3 (by simp)), byte_and_255 a (hf a (by simp)),
              byte_and_255 b (hf b (by simp)), byte_and_255 c (hf c (by simp)),
              byte_and_255 d (hf d (by simp))] at hall
            obtain ⟨h0, h1, h2, h3⟩ := hall
            simp [h0, h1, h2, h3]
      by_cases h4 : IP.To4 ip = []
      · rw [if_pos h4] at hcont
        have := key ip hb (by simpa using hcont)
        subst this
        simp [IP.To4] at h4
      · rw [if_neg h4] at hcont
        apply key (IP.To4 ip) ?_ (by simpa using hcont)
        intro x hx
        apply hb
        unfold IP.To4 at hx
        split at hx
        · exact hx
        · split at hx
          · exact List.mem_of_mem_drop hx
          · simp at hx

/-- C12 (a bare address gets a full-host prefix).  The bare IPv6 address
`2001:db8::1` is given `/32`, as every string without a slash is, so the subnet
`New` compiles for it as a static CIDR, and `update` for it as a line of a remote
list, is `2001:db8::/32`, which contains other addresses, such as `2001:db8::2`.
For a bare IPv4 address in dotted decimal form the claim holds: the subnet is the
address under the mask of 32 ones, it contains the address, and an address (of
bytes) that it contains is that address. -/
theorem bare_IPv6_address_gets_prefix_32 :
    withDefaultPrefix "2001:db8::1" = "2001:db8::1/32" ∧
    ParseCIDR (withDefaultPrefix "2001:db8::1") = some net2001db8 ∧
    New offline bareIPv6 = Step.ok
      { Custom403Response := none,
        Map := [("edge", { HeaderActions := [], RawStaticCIDRs := [],
                           staticCIDRS := [net2001db8], DynamicCIDRs := [] })] } ∧
    remoteSource.update offline.isPrintWide listBareIPv6 =
      UpdateOutcome.returned { remoteSource with cidrList := [net2001db8] } 1 0 none ∧
    ParseIP "2001:db8::2" ≠ ParseIP "2001:db8::1" ∧
    net2001db8.Contains (ParseIP "2001:db8::1") = true ∧
    net2001db8.Contains (ParseIP "2001:db8::2") = true ∧
    net2001db8.Contains (ParseIP "2001:db8:ffff:ffff:ffff:ffff:ffff:ffff") = true ∧
    (∀ (s : String) (f : List Nat), parseIPv4Fields s.toList = some f →
      withDefaultPrefix s = s ++ "/32" ∧
      ParseCIDR (withDefaultPrefix s) = some { IP := f, Mask := [255, 255, 255, 255] } ∧
      IPNet.Contains { IP := f, Mask := [255, 255, 255, 255] } (ParseIP s) = true ∧
      ∀ ip : IP, (∀ b ∈ ip, b ≤ 255) →
        IPNet.Contains { IP := f, Mask := [255, 255, 255, 255] } ip = true → IP.To4 ip = f) := by
  refine ⟨by decide, by decide, by decide, by decide, by decide, by decide, by decide,
    by decide, ?_⟩
  intro s f h
  exact ⟨(ParseCIDR_bare_IPv4 s f h).1, (ParseCIDR_bare_IPv4 s f h).2,
    (Contains_host_IPv4 s f h).1, (Contains_host_IPv4 s f h).2⟩
/-! ### Dynamic sources at construction -/

/-- The loop over the static CIDRs passes when every string parses. -/
theorem New_staticCIDRs_ok (wide : Nat → Bool) (name : String) (raws : List String)
    (acc : List IPNet) (h : ∀ t ∈ raws, ParseCIDR (withDefaultPrefix t) ≠ none) :
    ∃ acc1 : List IPNet, New_staticCIDRs wide name raws acc = Step.ok acc1 := by
  obtain ⟨acc1, h1⟩ := New_staticCIDRs_append wide name raws [] acc h
  rw [List.append_nil] at h1
  exact ⟨acc1, by rw [h1]; rfl⟩

/-- What the loop body for the first dynamic source yields, when it is not a value
to go on with, is what `New` yields for a registry of that one entry whose header
actions and static CIDRs pass. -/
theorem New_first_dynamicCIDR_stops (ext : Extern) (config : Config) (n : String)
    (proxy : ReverseProxy) (dyn : DynamicCIDR) (rest : List DynamicCIDR)
    (hmap : config.Map = [(n, proxy)])
    (hacts : ∀ a ∈ proxy.HeaderActions, a.wellFormed)
    (hstatic : ∀ t ∈ proxy.RawStaticCIDRs, ParseCIDR (withDefaultPrefix t) ≠ none)
    (hdyn : proxy.DynamicCIDRs = dyn :: rest) :
    (∀ msg : String, New_dynamicCIDR ext n (ext.observed 0 0) dyn = Step.failed msg →
      New ext config = Step.failed msg) ∧
    (∀ msg : String, New_dynamicCIDR ext n (ext.observed 0 0) dyn = Step.panicked msg →
      New ext config = Step.panicked msg) := by
  have hc : ¬ (proxy.DynamicCIDRs.length = 0 ∧ proxy.RawStaticCIDRs.length = 0) := by
    rw [hdyn]; simp
  have ha := (New_headerActions_eq_none_iff ext.isPrintWide n proxy.HeaderActions 0).mpr hacts
  obtain ⟨acc1, hs⟩ := New_staticCIDRs_ok ext.isPrintWide n proxy.RawStaticCIDRs
    proxy.staticCIDRS hstatic
  constructor
  · intro msg h
    simp [New, hmap, New_map, New_proxy, if_neg hc, ha, hs, hdyn, New_dynamicCIDRs, h]
  · intro msg h
    simp [New, hmap, New_map, New_proxy, if_neg hc, ha, hs, hdyn, New_dynamicCIDRs, h]

/-- A string that the expression of `New` accepts and the syntax of the
specification does not ends in the unit `M`. -/
theorem intervalRegex_unit_M (s digits unit : String)
    (h : intervalRegex s = some (digits, unit)) (hspec : specIntervalSyntax s = false) :
    unit = "M" ∧ digits.toList ≠ [] ∧ digits.toList.all isDigit = true ∧
      s.toList = digits.toList ++ ['M'] := by
  unfold intervalRegex at h
  unfold specIntervalSyntax at hspec
  cases hr : s.toList.reverse with
  | nil => rw [hr] at h; cases h
  | cons u ds =>
    rw [hr] at h hspec
    dsimp only at h hspec
    by_cases hc : (u = 's' ∨ u = 'h' ∨ u = 'd' ∨ u = 'w' ∨ u = 'm' ∨ u = 'M') ∧ ds ≠ [] ∧
        ds.all isDigit = true
    · rw [if_pos hc] at h
      simp only [Option.some.injEq, Prod.mk.injEq] at h
      obtain ⟨rfl, rfl⟩ := h
      have hu : u = 'M' := by
        rcases hc.1 with h1 | h1 | h1 | h1 | h1 | h1
        · simp [h1, hc.2.1, hc.2.2] at hspec
        · simp [h1, hc.2.1, hc.2.2] at hspec
        · simp [h1, hc.2.1, hc.2.2] at hspec
        · simp [h1, hc.2.1, hc.2.2] at hspec
        · simp [h1, hc.2.1, hc.2.2] at hspec
        · exact h1
      subst hu
      have hs : s.toList = ds.reverse ++ ['M'] := by
        have := congrArg List.reverse hr
        simpa using this
      refine ⟨rfl, ?_, ?_, hs⟩
      · simpa using hc.2.1
      · simpa using hc.2.2
    · rw [if_neg hc] at h; cases h

/-- `NewInterval` refuses the unit `M`. -/
theorem NewInterval_M (wide : Nat → Bool) (number : Int) :
    ∃ err : String, NewInterval wide number "M" = Except.error err := by
  unfold NewInterval
  by_cases h : number ≤ 0
  · rw [if_pos h]; exact ⟨_, rfl⟩
  · rw [if_neg h, if_pos (by decide)]; exact ⟨_, rfl⟩

/-- The loop body for a dynamic source reads only the two functions of `Extern`
besides what the fetch observes. -/
theorem New_dynamicCIDR_congr (ext ext1 : Extern) (n : String) (w : Observed) (dyn : DynamicCIDR)
    (h1 : ext1.isPrintWide = ext.isPrintWide) (h2 : ext1.validRequestURI = ext.validRequestURI) :
    New_dynamicCIDR ext1 n w dyn = New_dynamicCIDR ext n w dyn := by
  simp only [New_dynamicCIDR, h1, h2]

/-- An interval outside the syntax of the specification stops the loop body for
the dynamic source before the fetch: the result is an error that does not depend
on what a fetch would observe. -/
theorem New_dynamicCIDR_bad_interval (ext : Extern) (n : String) (dyn : DynamicCIDR)
    (hurl : ext.validRequestURI dyn.Url = true) (hne : dyn.RawInterval ≠ "")
    (hspec : specIntervalSyntax dyn.RawInterval = false) :
    ∃ msg : String, (∀ w : Observed, New_dynamicCIDR ext n w dyn = Step.failed msg) ∧
      Contains msg (Quote ext.isPrintWide n) = true ∧
      (intervalRegex dyn.RawInterval = none →
        Contains msg ("invalid interval " ++ Quote ext.isPrintWide dyn.RawInterval) = true) := by
  have hq : ∀ tail : String, Contains ("error in " ++ Quote ext.isPrintWide n ++
      " reverse proxy configuration, endpoint " ++ Quote ext.isPrintWide dyn.Url ++ tail)
      (Quote ext.isPrintWide n) = true := by
    intro tail
    simp only [String.append_assoc]
    exact Contains_quoted_name _ _
  have hinv : Contains ("error in " ++ Quote ext.isPrintWide n ++
      " reverse proxy configuration, endpoint " ++ Quote ext.isPrintWide dyn.Url ++
      ": invalid interval " ++ Quote ext.isPrintWide dyn.RawInterval)
      ("invalid interval " ++ Quote ext.isPrintWide dyn.RawInterval) = true := by
    apply Contains_of_infix _ _ ("error in " ++ Quote ext.isPrintWide n ++
      " reverse proxy configuration, endpoint " ++ Quote ext.isPrintWide dyn.Url ++ ": ") ""
    apply String.ext
    simp [String.data_append]
  have hu : ¬ (¬ ext.validRequestURI dyn.Url = true) := by simp [hurl]
  cases hre : intervalRegex dyn.RawInterval with
  | none =>
    refine ⟨("error in " ++ Quote ext.isPrintWide n ++
      " reverse proxy configuration, endpoint " ++ Quote ext.isPrintWide dyn.Url ++
      ": invalid interval " ++ Quote ext.isPrintWide dyn.RawInterval), fun w => ?_, ?_, fun _ => hinv⟩
    · simp only [New_dynamicCIDR, if_neg hu, New_interval, if_pos hne, hre]
    · simp only [String.append_assoc]
      exact Contains_quoted_name _ _
  | some p =>
    obtain ⟨digits, unit⟩ := p
    obtain ⟨rfl, -⟩ := intervalRegex_unit_M _ _ _ hre hspec
    cases hat : Atoi digits with
    | none =>
      refine ⟨("error in " ++ Quote ext.isPrintWide n ++
      " reverse proxy configuration, endpoint " ++ Quote ext.isPrintWide dyn.Url ++
      ": invalid interval " ++ Quote ext.isPrintWide dyn.RawInterval), fun w => ?_, ?_,
        fun h => absurd h (by simp)⟩
      · simp only [New_dynamicCIDR, if_neg hu, New_interval, if_pos hne, hre, hat]
      · simp only [String.append_assoc]
        exact Contains_quoted_name _ _
    | some number =>
      obtain ⟨err, herr⟩ := NewInterval_M ext.isPrintWide number
      refine ⟨"error in " ++ Quote ext.isPrintWide n ++
        " reverse proxy configuration, endpoint " ++ Quote ext.isPrintWide dyn.Url ++ ": " ++ err,
        fun w => ?_, ?_, fun h => absurd h (by simp)⟩
      · simp only [New_dynamicCIDR, if_neg hu, New_interval, if_pos hne, hre, hat, herr]
      · simp only [String.append_assoc]
        exact Contains_quoted_name _ _

/-- C13, amended (an interval that is refused).  For a registry whose only entry
`n` has well-formed header actions, static CIDRs that parse, and as its first
dynamic source one with an accepted URL and a non-empty interval outside the
syntax `^(\d+)(s|m|h|d|w)$`, `New` returns an error, the same whatever the sources
would deliver, whose text contains the name as `%q` writes it.  When the interval
does not match the expression of the code, `^(\d+)(s|h|d|w|m|M)$`, the text
contains `invalid interval ` followed by the interval as `%q` writes it; the only
intervals outside the syntax that do match it are digits followed by `M`. -/
theorem New_invalid_interval_error (ext : Extern) (config : Config) (n : String)
    (proxy : ReverseProxy) (dyn : DynamicCIDR) (rest : List DynamicCIDR)
    (hmap : config.Map = [(n, proxy)])
    (hacts : ∀ a ∈ proxy.HeaderActions, a.wellFormed)
    (hstatic : ∀ t ∈ proxy.RawStaticCIDRs, ParseCIDR (withDefaultPrefix t) ≠ none)
    (hdyn : proxy.DynamicCIDRs = dyn :: rest)
    (hurl : ext.validRequestURI dyn.Url = true)
    (hne : dyn.RawInterval ≠ "")
    (hspec : specIntervalSyntax dyn.RawInterval = false) :
    ∃ msg : String, New ext config = Step.failed msg ∧
      (∀ ext1 : Extern, ext1.isPrintWide = ext.isPrintWide →
        ext1.validRequestURI = ext.validRequestURI → New ext1 config = Step.failed msg) ∧
      Contains msg (Quote ext.isPrintWide n) = true ∧
      (plainName ext.isPrintWide n → Contains msg n = true) ∧
      (intervalRegex dyn.RawInterval = none →
        Contains msg ("invalid interval " ++ Quote ext.isPrintWide dyn.RawInterval) = true ∧
        (plainName ext.isPrintWide dyn.RawInterval →
          Contains msg ("invalid interval \"" ++ dyn.RawInterval ++ "\"") = true)) ∧
      (intervalRegex dyn.RawInterval ≠ none →
        ∃ digits : List Char, digits ≠ [] ∧ digits.all isDigit = true ∧
          dyn.RawInterval.toList = digits ++ ['M']) := by
  obtain ⟨msg, hmsg, hq, hinv⟩ := New_dynamicCIDR_bad_interval ext n dyn hurl hne hspec
  refine ⟨msg, ?_, ?_, hq, ?_, ?_, ?_⟩
  · exact (New_first_dynamicCIDR_stops ext config n proxy dyn rest hmap hacts hstatic hdyn).1
      msg (hmsg _)
  · intro ext1 h1 h2
    apply (New_first_dynamicCIDR_stops ext1 config n proxy dyn rest hmap hacts hstatic hdyn).1
    rw [New_dynamicCIDR_congr ext ext1 n _ dyn h1 h2]
    exact hmsg _
  · intro hp
    rw [Contains_iff] at hq ⊢
    exact ((Contains_iff _ _).mp (Contains_Quote_plain _ n hp)).trans hq
  · intro hre
    refine ⟨hinv hre, fun hp => ?_⟩
    have h1 := hinv hre
    rw [Quote_plain _ _ hp] at h1
    rw [Contains_iff] at h1 ⊢
    refine List.IsInfix.trans ?_ h1
    exact ⟨[], [], by simp [String.data_append]⟩
  · intro hre
    cases hr : intervalRegex dyn.RawInterval with
    | none => exact absurd hr hre
    | some p =>
      obtain ⟨h1, h2, h3, h4⟩ := intervalRegex_unit_M _ p.1 p.2 hr hspec
      exact ⟨p.1.toList, h2, h3, h4⟩

/-- C13 at a concrete input: the interval `!!!invalid interval!!!` of the tests. -/
theorem New_invalid_interval_error_witness :
    ∃ msg : String, New reachable cloudflareBadInterval = Step.failed msg ∧
      Contains msg "cloudflare" = true ∧
      Contains msg "invalid interval \"!!!invalid interval!!!\"" = true :=
  let ⟨msg, h1, _, _, h4, h5, _⟩ :=
    New_invalid_interval_error reachable cloudflareBadInterval "cloudflare" _
      { Url := "https://www.cloudflare.com/ips-v4", interval := none,
        RawInterval := "!!!invalid interval!!!", cidrList := [] } []
      rfl (by decide) (by decide) rfl rfl (by decide) (by decide)
  ⟨msg, h1, h4 (by unfold plainName; decide),
    (h5 (by decide)).2 (by unfold plainName; decide)⟩

set_option maxRecDepth 100000 in
/-- C13, as it stands, fails.  The interval `60M` is outside the syntax
`^(\d+)(s|m|h|d|w)$`, but the expression of `New` accepts the unit `M`; the error
comes from `NewInterval`, and `invalid interval "60M"` does not occur in it. -/
theorem New_interval_60M_error :
    specIntervalSyntax "60M" = false ∧
    reachable.validRequestURI "https://www.cloudflare.com/ips-v4" = true ∧
    New reachable cloudflareEveryMonth = Step.failed
      "error in \"cloudflare\" reverse proxy configuration, endpoint \"https://www.cloudflare.com/ips-v4\": the interval \"60\"M\"\" is invalid because the unit is unknown. Available units: s, m, h, d, w" ∧
    Contains
      "error in \"cloudflare\" reverse proxy configuration, endpoint \"https://www.cloudflare.com/ips-v4\": the interval \"60\"M\"\" is invalid because the unit is unknown. Available units: s, m, h, d, w"
      "invalid interval \"60M\"" = false := by
  refine ⟨by decide, by decide, by decide, by decide⟩

/-- C14 (a URL of another scheme).  The URL `ftp://example.org/list` passes the
check of its syntax, and `New` then calls `update`, which panics with
`not implemented`: `New` returns no error to its caller.  So it is for every
registry of one entry, with well-formed header actions and static CIDRs that
parse, whose first dynamic source has an accepted URL that starts with none of
`file://`, `http://` and `https://`, and no interval. -/
theorem New_unsupported_scheme_panics :
    reachable.validRequestURI "ftp://example.org/list" = true ∧
    New reachable cloudflareFtp = Step.panicked "not implemented" ∧
    (∀ (ext : Extern) (config : Config) (n : String) (proxy : ReverseProxy)
      (dyn : DynamicCIDR) (rest : List DynamicCIDR),
      config.Map = [(n, proxy)] →
      (∀ a ∈ proxy.HeaderActions, a.wellFormed) →
      (∀ t ∈ proxy.RawStaticCIDRs, ParseCIDR (withDefaultPrefix t) ≠ none) →
      proxy.DynamicCIDRs = dyn :: rest →
      ext.validRequestURI dyn.Url = true → dyn.RawInterval = "" →
      dyn.isFileUrl = false → dyn.isHttpUrl = false →
      New ext config = Step.panicked "not implemented") := by
  refine ⟨by decide, by decide, ?_⟩
  intro ext config n proxy dyn rest hmap hacts hstatic hdyn hurl hraw hfile hhttp
  apply (New_first_dynamicCIDR_stops ext config n proxy dyn rest hmap hacts hstatic hdyn).2
  have hu : ¬ (¬ ext.validRequestURI dyn.Url = true) := by simp [hurl]
  have hi : New_interval ext.isPrintWide n dyn = Step.ok dyn := by
    simp [New_interval, hraw]
  simp only [New_dynamicCIDR, if_neg hu, hi, DynamicCIDR.update, hfile, hhttp]
  simp

/-! ### What a successful construction leaves -/

/-- The loop over the lines of a file fails when it meets a line it can neither
skip nor parse. -/
theorem updateFileLoop_failed (d : DynamicCIDR) : ∀ (lines : List String) (acc : List IPNet)
    (added skipped : Nat), (∃ line ∈ lines, d.rejectsLine line) →
    ∃ entry : String, updateFileLoop d lines acc added skipped = LinesOutcome.failed entry := by
  intro lines
  induction lines with
  | nil => intro acc added skipped h; simp at h
  | cons line rest ih =>
    intro acc added skipped h
    simp only [updateFileLoop]
    by_cases hdup : d.hasCIDR (if ¬ Contains line "/" = true then line ++ "/32" else line) = true
    · rw [if_pos hdup]
      apply ih
      obtain ⟨l, hl, hbad⟩ := h
      rcases List.mem_cons.mp hl with rfl | hl
      · have := hbad.1
        unfold withDefaultPrefix at this
        rw [this] at hdup
        cases hdup
      · exact ⟨l, hl, hbad⟩
    · rw [if_neg hdup]
      cases hp : ParseCIDR (if ¬ Contains line "/" = true then line ++ "/32" else line) with
      | none => exact ⟨_, rfl⟩
      | some cidr =>
        apply ih
        obtain ⟨l, hl, hbad⟩ := h
        rcases List.mem_cons.mp hl with rfl | hl
        · have := hbad.2
          unfold withDefaultPrefix at this
          rw [this] at hp
          cases hp
        · exact ⟨l, hl, hbad⟩

/-- The loop over the lines of a remote list fails when it meets a line it can
neither pass over, nor skip, nor parse. -/
theorem updateHttpLoop_failed (d : DynamicCIDR) : ∀ (lines : List String) (acc : List IPNet)
    (added skipped : Nat), (∃ line ∈ lines, d.rejectsRemoteLine line) →
    ∃ entry : String, updateHttpLoop d lines acc added skipped = LinesOutcome.failed entry := by
  intro lines
  induction lines with
  | nil => intro acc added skipped h; simp at h
  | cons line rest ih =>
    intro acc added skipped h
    have hrest : ∀ (acc : List IPNet) (added skipped : Nat),
        ¬ d.rejectsRemoteLine line →
        ∃ entry : String, updateHttpLoop d rest acc added skipped = LinesOutcome.failed entry := by
      intro acc added skipped hn
      apply ih
      obtain ⟨l, hl, hbad⟩ := h
      rcases List.mem_cons.mp hl with rfl | hl
      · exact absurd hbad hn
      · exact ⟨l, hl, hbad⟩
    simp only [updateHttpLoop]
    by_cases hblank : TrimSpace line = ""
    · rw [if_pos hblank]
      exact hrest _ _ _ (fun hb => hb.1 hblank)
    · rw [if_neg hblank]
      by_cases hdup : d.hasCIDR
          (if ¬ Contains (TrimSpace line) "/" = true then TrimSpace line ++ "/32"
            else TrimSpace line) = true
      · rw [if_pos hdup]
        apply hrest
        intro hb
        have := hb.2.1
        unfold withDefaultPrefix at this
        rw [this] at hdup
        cases hdup
      · rw [if_neg hdup]
        cases hp : ParseCIDR
            (if ¬ Contains (TrimSpace line) "/" = true then TrimSpace line ++ "/32"
              else TrimSpace line) with
        | none => exact ⟨_, rfl⟩
        | some cidr =>
          apply hrest
          intro hb
          have := hb.2.2
          unfold withDefaultPrefix at this
          rw [this] at hp
          cases hp

/-- C16 (a refresh that fails leaves the list alone).  When a refresh fails for a
missing or unreadable file, a file that cannot be opened, a line of the file that
can neither be skipped nor parsed, or, for a remote source, a transport error, a
status other than 200 and 304, a body of more than 2000 bytes or an error while
the body is read, `update` returns `(0, 0)` with an error and the source is as it
was before. -/
theorem update_failure_keeps_list (wide : Nat → Bool) (d : DynamicCIDR) (w : Observed)
    (h : (d.isFileUrl = true ∧
          (w.statErr = some StatError.notExist ∨ w.statErr = some StatError.permission ∨
            w.openErr ≠ none ∨ ∃ line ∈ w.lines, d.rejectsLine line)) ∨
        (d.isFileUrl = false ∧ d.isHttpUrl = true ∧
          (w.getErr ≠ none ∨ (w.StatusCode ≠ 304 ∧ w.StatusCode ≠ 200) ∨
            w.body.utf8ByteSize > 2000 ∨ w.readErr ≠ none))) :
    ∃ err : String, d.update wide w = UpdateOutcome.returned d 0 0 (some err) := by
  unfold DynamicCIDR.update
  rcases h with ⟨hfile, hcase⟩ | ⟨hfile, hhttp, hcase⟩
  · rw [if_pos hfile]
    dsimp only
    by_cases h1 : w.statErr = some StatError.notExist
    · rw [if_pos h1]; exact ⟨_, rfl⟩
    · rw [if_neg h1]
      by_cases h2 : w.statErr = some StatError.permission
      · rw [if_pos h2]; exact ⟨_, rfl⟩
      · rw [if_neg h2]
        cases ho : w.openErr with
        | some err => exact ⟨err, rfl⟩
        | none =>
          dsimp only
          rcases hcase with h3 | h3 | h3 | h3
          · exact absurd h3 h1
          · exact absurd h3 h2
          · exact absurd ho h3
          · obtain ⟨entry, he⟩ := updateFileLoop_failed d w.lines [] 0 0 h3
            rw [he]
            exact ⟨_, rfl⟩
  · rw [if_neg (by simp [hfile]), if_pos hhttp]
    cases hg : w.getErr with
    | some err => exact ⟨err, rfl⟩
    | none =>
      dsimp only
      by_cases hs : w.StatusCode ≠ 304 ∧ w.StatusCode ≠ 200
      · rw [if_pos hs]; exact ⟨_, rfl⟩
      · rw [if_neg hs]
        by_cases hb : w.body.utf8ByteSize > 2000
        · rw [if_pos hb]; exact ⟨_, rfl⟩
        · rw [if_neg hb]
          cases hr : w.readErr with
          | some err => exact ⟨err, rfl⟩
          | none =>
            rcases hcase with h3 | h3 | h3 | h3
            · exact absurd hg h3
            · exact absurd h3 hs
            · exact absurd h3 hb
            · exact absurd hr h3

/-- C16 at a concrete input: a remote source that holds `10.0.0.0/8` and a response
with status 500. -/
theorem update_failure_keeps_list_witness :
    ∃ err : String, remoteWithList.update offline.isPrintWide status500
      = UpdateOutcome.returned remoteWithList 0 0 (some err) :=
  update_failure_keeps_list offline.isPrintWide remoteWithList status500
    (Or.inr ⟨by decide, by decide, Or.inr (Or.inl (by decide))⟩)

/-- C17 (a remote list with a malformed line empties the list).  When the body of
a response with status 200 or 304 has been read, within the 2000 bytes, and one of
its lines, trimmed, is not blank and can neither be skipped as a duplicate of the
current list nor parsed, `update` returns `(0, 0)` with the error
`invalid URL content`, and the list of the source is empty afterwards. -/
theorem update_remote_malformed_line_clears_list (wide : Nat → Bool) (d : DynamicCIDR)
    (w : Observed)
    (hfile : d.isFileUrl = false) (hhttp : d.isHttpUrl = true)
    (hget : w.getErr = none) (hstatus : w.StatusCode = 200 ∨ w.StatusCode = 304)
    (hsize : w.body.utf8ByteSize ≤ 2000) (hread : w.readErr = none)
    (hline : ∃ line ∈ bodyLines w.body, d.rejectsRemoteLine line) :
    d.update wide w =
      UpdateOutcome.returned { d with cidrList := [] } 0 0 (some "invalid URL content") := by
  unfold DynamicCIDR.update
  rw [if_neg (by simp [hfile]), if_pos hhttp, hget]
  dsimp only
  have hs : ¬ (w.StatusCode ≠ 304 ∧ w.StatusCode ≠ 200) := by
    rintro ⟨h1, h2⟩
    rcases hstatus with h | h
    · exact h2 h
    · exact h1 h
  rw [if_neg hs, if_neg (by omega), hread]
  dsimp only
  obtain ⟨entry, he⟩ := updateHttpLoop_failed d (bodyLines w.body) [] 0 0 hline
  unfold bodyLines at he
  rw [he]

/-- C17 at a concrete input: a source that holds `10.0.0.0/8`, and a body with the
valid line `192.168.0.0/16` before the line `not-a-cidr`. -/
theorem update_remote_malformed_line_clears_list_witness :
    remoteWithList.cidrList = [{ IP := [10, 0, 0, 0], Mask := [255, 0, 0, 0] }] ∧
    bodyLines listWithBadLine.body = ["192.168.0.0/16", "not-a-cidr", ""] ∧
    remoteWithList.update offline.isPrintWide listWithBadLine =
      UpdateOutcome.returned { remoteWithList with cidrList := [] } 0 0
        (some "invalid URL content") :=
  ⟨by decide, by decide,
    update_remote_malformed_line_clears_list offline.isPrintWide remoteWithList listWithBadLine
      (by decide) (by decide) (by decide) (Or.inl (by decide)) (by decide) (by decide)
      ⟨"not-a-cidr", by decide, by decide, by decide, by decide⟩⟩

/-- The number of bytes of a concatenation. -/
theorem utf8ByteSize_append (s t : String) :
    (s ++ t).utf8ByteSize = s.utf8ByteSize + t.utf8ByteSize := by
  cases s with | mk a => cases t with | mk b =>
  show String.utf8ByteSize ⟨a ++ b⟩ = _
  simp only [String.utf8ByteSize_mk, String.utf8Len_append]

/-- The number of bytes of a text repeated `n` times. -/
theorem utf8ByteSize_join_replicate (s : String) :
    ∀ n : Nat, (String.join (List.replicate n s)).utf8ByteSize = n * s.utf8ByteSize
  | 0 => by simp [String.join, String.utf8ByteSize, String.utf8ByteSize.go]
  | n + 1 => by
    have ih := utf8ByteSize_join_replicate s n
    have e : String.join (List.replicate (n + 1) s) =
        s ++ String.join (List.replicate n s) := by
      apply String.ext
      simp [String.data_join, List.replicate_succ]
    rw [e, utf8ByteSize_append, ih]
    ring

/-- The body of `listOversized` has 2261 bytes. -/
theorem listOversized_size : listOversized.body.utf8ByteSize = 2261 := by
  show (String.join (List.replicate 150 "192.168.0.0/16\n") ++
    "not-a-cidr\n").utf8ByteSize = 2261
  rw [utf8ByteSize_append, utf8ByteSize_join_replicate]
  decide

/-- A response with status 200 or 304 whose body has more than 2000 bytes: the
read through `http.MaxBytesReader` fails, `update` returns `(0, 0)` with the error
of the reader and the source is as it was, whatever the lines of the body. -/
theorem update_remote_of_oversized_body (wide : Nat → Bool) (d : DynamicCIDR) (w : Observed)
    (hfile : d.isFileUrl = false) (hhttp : d.isHttpUrl = true)
    (hget : w.getErr = none) (hstatus : w.StatusCode = 200 ∨ w.StatusCode = 304)
    (hsize : w.body.utf8ByteSize > 2000) :
    d.update wide w =
      UpdateOutcome.returned d 0 0 (some "http: request body too large") := by
  unfold DynamicCIDR.update
  rw [if_neg (by simp [hfile]), if_pos hhttp, hget]
  dsimp only
  have hs : ¬ (w.StatusCode ≠ 304 ∧ w.StatusCode ≠ 200) := by
    rintro ⟨h1, h2⟩
    rcases hstatus with h | h
    · exact h2 h
    · exact h1 h
  rw [if_neg hs, if_pos hsize]

set_option maxRecDepth 100000 in
/-- C17, a body over the limit: the source holds `10.0.0.0/8` and the response, with
status 200, has a body of 2261 bytes, one hundred and fifty valid lines and then
the line `not-a-cidr`, which can neither be skipped nor parsed.  The body is not
read to its end: `update` returns `(0, 0)` with the error
`http: request body too large`, not `invalid URL content`, and the list of the
source is as it was, not empty.  So it is for every remote source and every body
of more than 2000 bytes, whatever its lines. -/
theorem update_remote_oversized_body_keeps_list :
    remoteWithList.isFileUrl = false ∧ remoteWithList.isHttpUrl = true ∧
    remoteWithList.cidrList = [{ IP := [10, 0, 0, 0], Mask := [255, 0, 0, 0] }] ∧
    listOversized.getErr = none ∧ listOversized.StatusCode = 200 ∧
    listOversized.readErr = none ∧
    listOversized.body.utf8ByteSize = 2261 ∧
    (∃ line ∈ bodyLines listOversized.body, remoteWithList.rejectsRemoteLine line) ∧
    remoteWithList.update offline.isPrintWide listOversized =
      UpdateOutcome.returned remoteWithList 0 0 (some "http: request body too large") ∧
    remoteWithList.update offline.isPrintWide listOversized ≠
      UpdateOutcome.returned { remoteWithList with cidrList := [] } 0 0
        (some "invalid URL content") ∧
    (∀ (wide : Nat → Bool) (d : DynamicCIDR) (w : Observed),
      d.isFileUrl = false → d.isHttpUrl = true → w.getErr = none →
      (w.StatusCode = 200 ∨ w.StatusCode = 304) → w.body.utf8ByteSize > 2000 →
      d.update wide w =
        UpdateOutcome.returned d 0 0 (some "http: request body too large")) := by
  have hsize : listOversized.body.utf8ByteSize > 2000 := by
    rw [listOversized_size]; decide
  have hupd := update_remote_of_oversized_body offline.isPrintWide remoteWithList
    listOversized (by decide) (by decide) (by decide) (Or.inl (by decide)) hsize
  refine ⟨by decide, by decide, by decide, by decide, by decide, by decide,
    listOversized_size,
    ⟨"not-a-cidr", by decide, by decide, by decide, by decide⟩, hupd, ?_, ?_⟩
  · rw [hupd]
    decide
  · intro wide d w hfile hhttp hget hstatus hsize
    exact update_remote_of_oversized_body wide d w hfile hhttp hget hstatus hsize

/-- C20 (empty lines of a file).  A file of the two valid lines `10.0.0.0/8` and
`192.168.0.0/16` with an empty line between them makes `update` fail: the empty
line becomes `/32`, which does not parse, where the loop over a remote list
passes over a blank line.  Without the empty line the refresh succeeds.  At a
first fetch, when the source holds no subnet yet, every file with an empty line
makes `update` return `(0, 0)` with an error and leave the source as it was. -/
theorem update_file_with_empty_line_fails :
    fileSource.isFileUrl = true ∧
    fileSource.update offline.isPrintWide fileWithEmptyLine =
      UpdateOutcome.returned fileSource 0 0 (some "invalid CIDR address: /32") ∧
    fileSource.update offline.isPrintWide fileWithoutEmptyLine =
      UpdateOutcome.returned
        { fileSource with cidrList := [{ IP := [192, 168, 0, 0], Mask := [255, 255, 0, 0] }] }
        2 0 none ∧
    updateHttpLoop fileSource ["10.0.0.0/8", "", "192.168.0.0/16"] [] 0 0 =
      updateHttpLoop fileSource ["10.0.0.0/8", "192.168.0.0/16"] [] 0 0 ∧
    (∀ (wide : Nat → Bool) (d : DynamicCIDR) (w : Observed),
      d.isFileUrl = true → d.cidrList = [] → "" ∈ w.lines →
      ∃ err : String, d.update wide w = UpdateOutcome.returned d 0 0 (some err)) := by
  refine ⟨by decide, by decide, by decide, by decide, ?_⟩
  intro wide d w hfile hlist hmem
  unfold DynamicCIDR.update
  rw [if_pos hfile]
  dsimp only
  by_cases h1 : w.statErr = some StatError.notExist
  · rw [if_pos h1]; exact ⟨_, rfl⟩
  · rw [if_neg h1]
    by_cases h2 : w.statErr = some StatError.permission
    · rw [if_pos h2]; exact ⟨_, rfl⟩
    · rw [if_neg h2]
      cases ho : w.openErr with
      | some err => exact ⟨err, rfl⟩
      | none =>
        dsimp only
        have hbad : d.rejectsLine "" := by
          refine ⟨?_, by decide⟩
          simp [DynamicCIDR.hasCIDR, hlist]
        obtain ⟨entry, he⟩ := updateFileLoop_failed d w.lines [] 0 0 ⟨"", hmem, hbad⟩
        rw [he]
        exact ⟨_, rfl⟩

/-! ### The refresh scheduler -/

/-- C19 (the sleep interval).  The interval `9223372037s` is accepted by `New`, and
the product of the count and the nanoseconds of a second does not fit in 64 bits:
the interval the goroutine sleeps for is negative, not 9223372037 seconds.  For an
accepted interval whose count times the seconds of its unit is less than
`2 ^ 63` nanoseconds, the interval is as claimed, the count times 1, 60, 3600,
86400 or 604800 seconds, and positive. -/
theorem New_sleepInterval_overflows :
    specIntervalSyntax "9223372037s" = true ∧
    New reachable cloudflareLongInterval = Step.ok
      { Custom403Response := none,
        Map := [("cloudflare",
          { HeaderActions := [], RawStaticCIDRs := [], staticCIDRS := [],
            DynamicCIDRs := [{ Url := "https://www.cloudflare.com/ips-v4",
                               interval := some { Number := 9223372037, Unit := "s" },
                               RawInterval := "", cidrList := [] }] })] } ∧
    New_sleepInterval { Number := 9223372037, Unit := "s" } = -9223372036709551616 ∧
    New_sleepInterval { Number := 9223372037, Unit := "s" } < 0 ∧
    New_sleepInterval { Number := 9223372037, Unit := "s" } ≠ 9223372037 * 1 * 1000000000 ∧
    (∀ (interval : Interval) (seconds : Int),
      0 < interval.Number → specUnitSeconds interval.Unit = some seconds →
      interval.Number * seconds * 1000000000 < 2 ^ 63 →
      New_sleepInterval interval = interval.Number * seconds * 1000000000 ∧
      0 < New_sleepInterval interval) := by
  refine ⟨by decide, by decide, by decide, by decide, by decide, ?_⟩
  intro interval seconds hpos hunit hfit
  have hw : ∀ x : Int, 0 ≤ x → x < 2 ^ 63 → wrapInt64 x = x := by
    intro x h0 h1
    unfold wrapInt64
    rw [Int.emod_eq_of_lt (by omega) (by omega)]
    omega
  have key : ∀ secs timeUnit : Int, 0 < secs → timeUnit = secs * 1000000000 →
      interval.Number * secs * 1000000000 < 2 ^ 63 →
      wrapInt64 (interval.Number * timeUnit) = interval.Number * secs * 1000000000 ∧
      0 < wrapInt64 (interval.Number * timeUnit) := by
    intro secs timeUnit hs ht hf
    have hp : 0 < interval.Number * secs * 1000000000 := by positivity
    have e : interval.Number * timeUnit = interval.Number * secs * 1000000000 := by
      rw [ht]; ring
    rw [e, hw _ (le_of_lt hp) hf]
    exact ⟨rfl, hp⟩
  unfold specUnitSeconds at hunit
  unfold New_sleepInterval
  by_cases h1 : interval.Unit = "s"
  · rw [if_pos h1] at hunit
    obtain rfl := Option.some.inj hunit
    simp only [if_pos h1]
    exact key 1 _ (by norm_num) (by decide) hfit
  · rw [if_neg h1] at hunit
    simp only [if_neg h1]
    by_cases h2 : interval.Unit = "m"
    · rw [if_pos h2] at hunit
      obtain rfl := Option.some.inj hunit
      simp only [if_pos h2]
      exact key 60 _ (by norm_num) (by decide) hfit
    · rw [if_neg h2] at hunit
      simp only [if_neg h2]
      by_cases h3 : interval.Unit = "h"
      · rw [if_pos h3] at hunit
        obtain rfl := Option.some.inj hunit
        simp only [if_pos h3]
        exact key 3600 _ (by norm_num) (by decide) hfit
      · rw [if_neg h3] at hunit
        simp only [if_neg h3]
        by_cases h4 : interval.Unit = "d"
        · rw [if_pos h4] at hunit
          obtain rfl := Option.some.inj hunit
          simp only [if_pos h4]
          exact key 86400 _ (by norm_num) (by decide) hfit
        · rw [if_neg h4] at hunit
          simp only [if_neg h4]
          by_cases h5 : interval.Unit = "w"
          · rw [if_pos h5] at hunit
            obtain rfl := Option.some.inj hunit
            simp only [if_pos h5]
            exact key 604800 _ (by norm_num) (by decide) hfit
          · rw [if_neg h5] at hunit
            cases hunit

/-! ### What a refresh leaves -/

/-- The loop over the lines of a file, for a source that holds no subnet and lines
that all parse: every line is counted as added, and the list that results holds
the subnet of the last line alone. -/
theorem updateFileLoop_of_empty_list (d : DynamicCIDR) (hd : d.cidrList = []) :
    ∀ (lines : List String) (acc : List IPNet) (added skipped : Nat),
    (∀ line ∈ lines, ParseCIDR (withDefaultPrefix line) ≠ none) →
    updateFileLoop d lines acc added skipped =
      LinesOutcome.finished
        (match lines.getLast? with
          | none => acc
          | some l => (ParseCIDR (withDefaultPrefix l)).toList)
        (added + lines.length) skipped := by
  intro lines
  induction lines with
  | nil => intro acc added skipped _; rfl
  | cons line rest ih =>
    intro acc added skipped h
    have hdup : ∀ t : String, d.hasCIDR t = false := by
      intro t
      simp [DynamicCIDR.hasCIDR, hd]
    have hline := h line (List.mem_cons_self _ _)
    cases hp : ParseCIDR (withDefaultPrefix line) with
    | none => exact absurd hp hline
    | some cidr =>
      have hp1 := hp
      unfold withDefaultPrefix at hp1
      simp only [updateFileLoop, hdup, hp1, hd, Bool.false_eq_true, if_false]
      rw [ih _ _ _ (fun x hx => h x (List.mem_cons_of_mem _ hx))]
      cases rest with
      | nil =>
        simp only [List.getLast?_nil, List.getLast?_singleton, hp, Option.toList,
          List.nil_append, List.length_nil, List.length_singleton, Nat.add_zero]
      | cons r rs =>
        simp only [List.getLast?_cons_cons, List.length_cons]
        cases hl : (r :: rs).getLast? with
        | none => simp at hl
        | some l =>
          have e : added + 1 + (rs.length + 1) = added + (rs.length + 1 + 1) := by omega
          simp only [e]

/-- C21 (a file of distinct valid lines).  For the file source that holds no subnet
and the file of the two lines `10.0.0.0/8` and `192.168.0.0/16`, `update` returns
added 2 and skipped 0, and leaves a list of one subnet, the one of the last line:
the loop appends each new subnet to the list of the source, not to the list it
builds.  `10.1.2.3`, inside the first network, is not reported trusted.  So it is
for every file of lines that parse, at a source that holds no subnet: added is
the number of lines, skipped is 0, and the list holds the subnet of the last line
alone. -/
theorem update_file_keeps_last_subnet_only :
    fileSource.isFileUrl = true ∧ fileSource.cidrList = [] ∧
    fileWithoutEmptyLine.lines = ["10.0.0.0/8", "192.168.0.0/16"] ∧
    ParseCIDR (withDefaultPrefix "10.0.0.0/8") = some net10 ∧
    ParseCIDR (withDefaultPrefix "192.168.0.0/16") = some net192168 ∧
    fileSource.update offline.isPrintWide fileWithoutEmptyLine =
      UpdateOutcome.returned { fileSource with cidrList := [net192168] } 2 0 none ∧
    net10.Contains (ParseIP "10.1.2.3") = true ∧
    (entryOf { fileSource with cidrList := [net192168] }).contains (ParseIP "10.1.2.3") = false ∧
    (∀ (wide : Nat → Bool) (d : DynamicCIDR) (w : Observed),
      d.isFileUrl = true → d.cidrList = [] → w.statErr = none → w.openErr = none →
      (∀ line ∈ w.lines, ParseCIDR (withDefaultPrefix line) ≠ none) →
      d.update wide w =
        UpdateOutcome.returned
          { d with cidrList :=
              match w.lines.getLast? with
              | none => []
              | some l => (ParseCIDR (withDefaultPrefix l)).toList }
          w.lines.length 0 none) := by
  refine ⟨by decide, by decide, by decide, by decide, by decide, by decide, by decide,
    by decide, ?_⟩
  intro wide d w hfile hd hstat hopen hlines
  unfold DynamicCIDR.update
  rw [if_pos hfile]
  simp only [hstat, hopen, updateFileLoop_of_empty_list d hd w.lines [] 0 0 hlines,
    Nat.zero_add]
  simp

/-- The loop over the lines of a remote list, when every line is blank or found in
the list of the source: nothing is added, and the list it builds stays as it
is. -/
theorem updateHttpLoop_of_known_lines (d : DynamicCIDR) :
    ∀ (lines : List String) (acc : List IPNet) (added skipped : Nat),
    (∀ line ∈ lines, TrimSpace line = "" ∨
      d.hasCIDR (withDefaultPrefix (TrimSpace line)) = true) →
    updateHttpLoop d lines acc added skipped =
      LinesOutcome.finished acc added
        (skipped + (lines.filter fun l => TrimSpace l != "").length) := by
  intro lines
  induction lines with
  | nil => intro acc added skipped _; rfl
  | cons line rest ih =>
    intro acc added skipped h
    have hrest := fun (s : Nat) => ih acc added s (fun x hx => h x (List.mem_cons_of_mem _ hx))
    simp only [updateHttpLoop]
    by_cases hblank : TrimSpace line = ""
    · rw [if_pos hblank, hrest]
      simp [hblank]
    · rw [if_neg hblank]
      have hdup : d.hasCIDR (withDefaultPrefix (TrimSpace line)) = true := by
        rcases h line (List.mem_cons_self _ _) with h1 | h1
        · exact absurd h1 hblank
        · exact h1
      unfold withDefaultPrefix at hdup
      rw [if_pos hdup, hrest]
      simp only [List.filter_cons, bne_iff_ne, ne_eq, hblank, not_false_eq_true, decide_True,
        if_true, List.length_cons]
      congr 1
      omega

/-- C22 (a second refresh from the same body).  The remote source that holds no
subnet takes the two subnets of the body `10.0.0.0/8`, `192.168.0.0/16` at the
first refresh.  At the second refresh from the same body both lines are found in
the list and skipped, and the list that replaces the list of the source is empty:
`10.1.2.3`, trusted after the first refresh, is not trusted after the second.  A
third refresh brings the two subnets back.  So it is whenever every line of the
body is blank or found in the list of the source: `update` succeeds with nothing
added and leaves the list empty. -/
theorem update_remote_twice_empties_list :
    remoteSource.cidrList = [] ∧
    bodyLines listTwoLines.body = ["10.0.0.0/8", "192.168.0.0/16", ""] ∧
    remoteSource.update offline.isPrintWide listTwoLines =
      UpdateOutcome.returned remoteFetched 2 0 none ∧
    remoteFetched.cidrList = [net10, net192168] ∧
    remoteFetched.update offline.isPrintWide listTwoLines =
      UpdateOutcome.returned { remoteFetched with cidrList := [] } 0 2 none ∧
    (entryOf remoteFetched).contains (ParseIP "10.1.2.3") = true ∧
    (entryOf { remoteFetched with cidrList := [] }).contains (ParseIP "10.1.2.3") = false ∧
    DynamicCIDR.update offline.isPrintWide { remoteFetched with cidrList := [] } listTwoLines =
      UpdateOutcome.returned remoteFetched 2 0 none ∧
    (∀ (wide : Nat → Bool) (d : DynamicCIDR) (w : Observed),
      d.isFileUrl = false → d.isHttpUrl = true → w.getErr = none →
      (w.StatusCode = 200 ∨ w.StatusCode = 304) → w.body.utf8ByteSize ≤ 2000 →
      w.readErr = none →
      (∀ line ∈ bodyLines w.body, TrimSpace line = "" ∨
        d.hasCIDR (withDefaultPrefix (TrimSpace line)) = true) →
      d.update wide w =
        UpdateOutcome.returned { d with cidrList := [] } 0
          ((bodyLines w.body).filter fun l => TrimSpace l != "").length none) := by
  refine ⟨by decide, by decide, by decide, by decide, by decide, by decide, by decide,
    by decide, ?_⟩
  intro wide d w hfile hhttp hget hstatus hsize hread hknown
  unfold DynamicCIDR.update
  rw [if_neg (by simp [hfile]), if_pos hhttp, hget]
  dsimp only
  have hs : ¬ (w.StatusCode ≠ 304 ∧ w.StatusCode ≠ 200) := by
    rintro ⟨h1, h2⟩
    rcases hstatus with h | h
    · exact h2 h
    · exact h1 h
  rw [if_neg hs, if_neg (by omega), hread]
  dsimp only
  have := updateHttpLoop_of_known_lines d (bodyLines w.body) [] 0 0 hknown
  unfold bodyLines at this
  rw [this]
  simp [bodyLines]

end Reverseguard
